/-
Verification of the change-detection engine of the GeoVision repository
(`src/utils/change_detection_real.py`, class `RealChangeDetectionAnalyzer`).

Embedding conventions:
* A numpy 2D array is a `Mat α := List (List α)` (list of rows); its
  `.shape` is `dims` (row count, length of the first row — identical to the
  numpy shape for non-ragged data, which is the only data numpy can hold).
* Python float arithmetic is embedded as exact arithmetic: band samples are
  rationals, and the single irrational operation of the pipeline
  (`np.sqrt` on line 75) maps the values into `ℝ`.
  `np.nan_to_num((a-b)/(a+b), nan=0, posinf=0, neginf=0)` is `ndPixel`:
  in exact arithmetic the only NaN/Inf source is a zero denominator, which
  the source maps to 0.0; hence results are everywhere-defined numbers and
  the "no NaN/Inf in the output" guarantee is expressed by totality of the
  embedded functions together with the explicit zero-denominator branch.
* A band dictionary is an association list `Bands := List (String × Raster)`
  (Python dicts preserve insertion order; `for key in bands2` with
  re-assignment of existing keys is `List.map` over the entries).
* Exceptions (`KeyError` for a missing band, numpy's `ValueError` for
  shape-incompatible elementwise operations or `min`/`max` of an empty
  array) are modelled by `Option`: `none` is a raised error.
* `detect_changes_with_real_bands` mutates its `bands2` argument in place
  on the resampling path (lines 55-59); the embedding returns the post-call
  state of `bands2` alongside the result.  `resampleStep` is exactly that
  mutation (lines 53-59).
* `cv2.resize(src, dsize)` with `dsize = (width, height)` raises
  `cv2.error` on an empty source raster (`!ssize.empty()`) and on a
  zero-sized target — both modelled as `none`; on success it returns an
  array of `height` rows and `width` columns, whose values are modelled by
  nearest-neighbour sampling.  No property proved below depends on the
  interpolated values, only on the output shape and the error condition.
* The per-index statistics blocks (mean/max/min/std and gain/loss
  percentages, lines 90-113) and the `mean_magnitude`/`max_magnitude`
  scalars are not referenced by any property below and are omitted from the
  embedded result record; for non-empty rasters none of them can raise.
-/
import Mathlib

namespace GeoVision

/-- A 2D raster: a list of rows. -/
abbrev Mat (α : Type) := List (List α)

/-- Rasters carry exact rational samples (embedding of Python floats). -/
abbrev Raster := Mat ℚ

/-- numpy `.shape` of a (non-ragged) 2D array: (rows, columns). -/
def dims {α : Type} (m : Mat α) : ℕ × ℕ := (m.length, (m.headD []).length)

/-- `m` is a well-formed `rows × cols` array (every row has length `cols`). -/
def hasShape {α : Type} (m : Mat α) (rows cols : ℕ) : Prop :=
  m.length = rows ∧ ∀ row ∈ m, row.length = cols

instance {α : Type} [DecidableEq α] (m : Mat α) (rows cols : ℕ) :
    Decidable (hasShape m rows cols) :=
  decidable_of_iff (m.length = rows ∧ ∀ row ∈ m, row.length = cols) Iff.rfl

/-- Entry access with numpy-style 0 default outside the array (used only to
state per-pixel properties, not by the embedded code). -/
def pixel (m : Mat ℚ) (i j : ℕ) : ℚ := (m.getD i []).getD j 0

/-- Pixelwise combination of two equal-shaped arrays. -/
def map2 {α β γ : Type} (f : α → β → γ) (a : Mat α) (b : Mat β) : Mat γ :=
  List.zipWith (List.zipWith f) a b

def zip3With {α β γ δ : Type} (f : α → β → γ → δ) :
    List α → List β → List γ → List δ
  | a :: as, b :: bs, c :: cs => f a b c :: zip3With f as bs cs
  | _, _, _ => []

/-- Pixelwise combination of three equal-shaped arrays. -/
def map3 {α β γ δ : Type} (f : α → β → γ → δ) (a : Mat α) (b : Mat β)
    (c : Mat γ) : Mat δ :=
  zip3With (zip3With f) a b c

/-- Pixelwise map. -/
def matMap {α β : Type} (f : α → β) (m : Mat α) : Mat β := m.map (List.map f)

/-- Pixelwise subtraction (e.g. `ndvi2 - ndvi1`, line 64). -/
def matSub (a b : Raster) : Raster := map2 (· - ·) a b

/-- One pixel of a normalized-difference index:
`np.nan_to_num((a - b)/(a + b), nan=0.0, posinf=0.0, neginf=0.0)`.
In exact arithmetic the NaN (0/0) and ±Inf (x/0, x ≠ 0) cases are exactly
the zero-denominator case, and both are sent to 0. -/
def ndPixel (a b : ℚ) : ℚ := if a + b = 0 then 0 else (a - b) / (a + b)

/-- Lines 17-22: NDVI = (NIR − Red) / (NIR + Red), zero-filled. -/
def calculate_ndvi (nir red : Raster) : Raster := map2 ndPixel nir red

/-- Lines 24-29: NDMI = (NIR − SWIR) / (NIR + SWIR), zero-filled. -/
def calculate_ndmi (nir swir : Raster) : Raster := map2 ndPixel nir swir

/-- Lines 31-36: NDBI = (SWIR − NIR) / (SWIR + NIR), zero-filled. -/
def calculate_ndbi (swir nir : Raster) : Raster := map2 ndPixel swir nir

/-- A band dictionary: insertion-ordered association list. -/
abbrev Bands := List (String × Raster)

/-- The raster produced by a *successful* `cv2.resize(src, dsize)` call
with `dsize = (width, height)`: `height` rows of `width` entries, sampled
nearest-neighbour from the source.  Only the shape contract matters for
the properties below; nothing proved depends on the interpolated values. -/
def resizeSample {α : Type} [Inhabited α] (src : Mat α) (dsize : ℕ × ℕ) :
    Mat α :=
  (List.range dsize.2).map fun i =>
    (List.range dsize.1).map fun j =>
      (src.getD (i * src.length / dsize.2) []).getD
        (j * (src.headD []).length / dsize.1) default

/-- `cv2.resize(src, dsize)` with `dsize = (width, height)`.  cv2 raises
`cv2.error` (the `!ssize.empty()` assertion) when the source raster has
no pixels, and likewise rejects a zero-sized target; both error paths are
`none` under the exceptions-as-`Option` convention.  On success the
resized raster is returned. -/
def cv2_resize {α : Type} [Inhabited α] (src : Mat α) (dsize : ℕ × ℕ) :
    Option (Mat α) :=
  if 0 < (dims src).1 ∧ 0 < (dims src).2 ∧ 0 < dsize.1 ∧ 0 < dsize.2 then
    some (resizeSample src dsize)
  else none

/-- The loop of lines 55-58 over every key of `bands2`: each stored raster
is replaced by its resized copy; the first failing `cv2.resize` aborts the
call with the propagated `cv2.error` (the partially updated dictionary is
then observable only through the exception path, which the embedding
collapses to `none`). -/
def resizeAll (dsize : ℕ × ℕ) : Bands → Option Bands
  | [] => some []
  | kv :: t =>
    (cv2_resize kv.2 dsize).bind fun v =>
    (resizeAll dsize t).bind fun t' =>
    some ((kv.1, v) :: t')

/-- Lines 53-59 of `detect_changes_with_real_bands`: if the `nir` shapes of
the two epochs differ, every raster stored in `bands2` is re-assigned to a
`cv2.resize` of itself targeting bands1's `nir` shape (an in-place mutation
of the caller's dictionary).  The returned value is the post-loop state of
`bands2`; `none` is the `KeyError` raised when `'nir'` is absent, or the
`cv2.error` raised inside the loop. -/
def resampleStep (bands1 bands2 : Bands) : Option Bands :=
  (bands1.lookup "nir").bind fun n1 =>
  (bands2.lookup "nir").bind fun n2 =>
  if dims n1 ≠ dims n2 then
    resizeAll ((dims n1).2, (dims n1).1) bands2
  else
    some bands2

/-- Line 75, one pixel: `np.sqrt(ndvi_change**2 + ndmi_change**2 + ndbi_change**2)`. -/
noncomputable def cvaPixel (a b c : ℚ) : ℝ :=
  Real.sqrt ((a : ℝ) ^ 2 + (b : ℝ) ^ 2 + (c : ℝ) ^ 2)

/-- `np.min` over a non-empty flattened array (the source's `.min()`;
applied only to non-empty data — numpy raises on empty input, which the
caller models separately). -/
noncomputable def listMin : List ℝ → ℝ
  | [] => 0
  | [a] => a
  | a :: b :: l => min a (listMin (b :: l))

/-- `np.max` over a non-empty flattened array. -/
noncomputable def listMax : List ℝ → ℝ
  | [] => 0
  | [a] => a
  | a :: b :: l => max a (listMax (b :: l))

/-- Line 76: `(cva_magnitude - min) / (max - min + 1e-8)`, elementwise over
the whole raster. -/
noncomputable def cva_normalize (mag : Mat ℝ) : Mat ℝ :=
  let mn := listMin mag.flatten
  let mx := listMax mag.flatten
  matMap (fun m => (m - mn) / (mx - mn + 1e-8)) mag

/-- Line 79: `np.sum(cva_normalized < 0.2)`. -/
noncomputable def countBelow (c : ℝ) : List ℝ → ℕ
  | [] => 0
  | x :: l => (if x < c then 1 else 0) + countBelow c l

/-- Line 80: `np.sum((cva_normalized >= 0.2) & (cva_normalized < 0.5))`. -/
noncomputable def countBetween (lo hi : ℝ) : List ℝ → ℕ
  | [] => 0
  | x :: l => (if lo ≤ x ∧ x < hi then 1 else 0) + countBetween lo hi l

/-- Line 81: `np.sum(cva_normalized >= 0.5)`. -/
noncomputable def countAtLeast (c : ℝ) : List ℝ → ℕ
  | [] => 0
  | x :: l => (if c ≤ x then 1 else 0) + countAtLeast c l

/-- The fields of the result dictionary (lines 84-124) referenced by the
specified properties.  `cva_magnitude` stores the *normalized* magnitude,
exactly as the source does.  `warning` is the optional `'warning'` key:
absent (`none`) on the real-band path, set by the legacy path. -/
structure Result where
  ndvi_change : Raster
  ndmi_change : Raster
  ndbi_change : Raster
  cva_magnitude : Mat ℝ
  no_change_percent : ℝ
  moderate_change_percent : ℝ
  significant_change_percent : ℝ
  data_source : String
  bands_used : String
  warning : Option String

/-- The shape/size precondition under which lines 62-124 run without a
numpy exception: the six rasters in play share one shape (numpy would
raise on the elementwise index arithmetic otherwise) and that shape is
non-empty (`.min()`/`.max()` on line 76 raise on an empty array). -/
def bandGuard (n1 r1 s1 n2 r2 s2 : Raster) : Prop :=
  dims r1 = dims n1 ∧ dims s1 = dims n1 ∧ dims n2 = dims n1 ∧
  dims r2 = dims n1 ∧ dims s2 = dims n1 ∧
  0 < (dims n1).1 ∧ 0 < (dims n1).2

instance (n1 r1 s1 n2 r2 s2 : Raster) :
    Decidable (bandGuard n1 r1 s1 n2 r2 s2) :=
  decidable_of_iff
    (dims r1 = dims n1 ∧ dims s1 = dims n1 ∧ dims n2 = dims n1 ∧
     dims r2 = dims n1 ∧ dims s2 = dims n1 ∧
     0 < (dims n1).1 ∧ 0 < (dims n1).2) Iff.rfl

/-- Line 75: the raw (pre-normalization) CVA magnitude raster computed from
the six input rasters via the three index-change rasters. -/
noncomputable def rawMagnitude (n1 r1 s1 n2 r2 s2 : Raster) : Mat ℝ :=
  map3 cvaPixel
    (matSub (calculate_ndvi n2 r2) (calculate_ndvi n1 r1))
    (matSub (calculate_ndmi n2 s2) (calculate_ndmi n1 s1))
    (matSub (calculate_ndbi s2 n2) (calculate_ndbi s1 n1))

/-- Lines 62-124: the change rasters, the normalized magnitude and the CVA
tier percentages, assembled from the six input rasters. -/
noncomputable def mkResult (n1 r1 s1 n2 r2 s2 : Raster) : Result :=
  let ndvi_change := matSub (calculate_ndvi n2 r2) (calculate_ndvi n1 r1)
  let ndmi_change := matSub (calculate_ndmi n2 s2) (calculate_ndmi n1 s1)
  let ndbi_change := matSub (calculate_ndbi s2 n2) (calculate_ndbi s1 n1)
  let cvaN := cva_normalize (rawMagnitude n1 r1 s1 n2 r2 s2)
  let total := cvaN.flatten.length
  { ndvi_change := ndvi_change
    ndmi_change := ndmi_change
    ndbi_change := ndbi_change
    cva_magnitude := cvaN
    no_change_percent := (countBelow 0.2 cvaN.flatten : ℝ) / (total : ℝ) * 100
    moderate_change_percent :=
      (countBetween 0.2 0.5 cvaN.flatten : ℝ) / (total : ℝ) * 100
    significant_change_percent :=
      (countAtLeast 0.5 cvaN.flatten : ℝ) / (total : ℝ) * 100
    data_source := "Real Satellite Bands (Landsat/Sentinel)"
    bands_used := "NIR, Red, SWIR (multispectral)"
    warning := none }

/-- Lines 62-124 as a fallible computation: band lookups in first-use
order (`KeyError` on a missing key is `none`), then the guarded numeric
pipeline. -/
noncomputable def computeResult (bands1 bands2 : Bands) : Option Result :=
  (bands1.lookup "nir").bind fun n1 =>
  (bands1.lookup "red").bind fun r1 =>
  (bands2.lookup "nir").bind fun n2 =>
  (bands2.lookup "red").bind fun r2 =>
  (bands1.lookup "swir").bind fun s1 =>
  (bands2.lookup "swir").bind fun s2 =>
  if bandGuard n1 r1 s1 n2 r2 s2 then some (mkResult n1 r1 s1 n2 r2 s2)
  else none

/-- `detect_changes_with_real_bands(bands1, bands2)` (lines 38-126).
The first component of a successful call is the post-call state of the
caller's `bands2` dictionary (mutated in place by lines 55-59), the second
is the returned result dictionary. -/
noncomputable def detect_changes_with_real_bands (bands1 bands2 : Bands) :
    Option (Bands × Result) :=
  (resampleStep bands1 bands2).bind fun bands2' =>
  (computeResult bands1 bands2').bind fun r =>
  some (bands2', r)

/-- A 3-channel (R, G, B) color image for the legacy path.  (The source
also accepts single-channel images, replicating the grey channel; that
branch adds nothing to the properties below and is not modelled.) -/
abbrev Image := Mat (ℚ × ℚ × ℚ)

/-- `np.clip(x, 0, 255).astype(np.uint8)`: clip then truncate (on the
clipped non-negative range, truncation is the floor). -/
def toUint8 (x : ℚ) : ℚ := ((⌊min (max x 0) 255⌋ : ℤ) : ℚ)

/-- Lines 128-152, `simulate_bands_from_rgb`: the returned dictionary in
its insertion order, with `nir = clip(1.2*green + 20)` and
`swir = clip(0.8*red + 0.3*blue)` cast to uint8. -/
def simulate_bands_from_rgb (image : Image) : Bands :=
  let red := matMap (fun p => p.1) image
  let green := matMap (fun p => p.2.1) image
  let blue := matMap (fun p => p.2.2) image
  let nir := matMap (fun g => toUint8 (g * (6 / 5) + 20)) green
  let swir := map2 (fun r b => toUint8 (r * (4 / 5) + b * (3 / 10))) red blue
  [("red", red), ("green", green), ("blue", blue), ("nir", nir),
   ("swir", swir)]

/-- The warning string attached by the legacy path (line 173). -/
def legacyWarning : String :=
  "⚠️ Results use simulated bands and may not be scientifically accurate"

/-- Lines 154-175, `detect_changes` (legacy/demo path): resample the second
image to the first's shape if needed, simulate bands from RGB, run the
real-band pipeline, then overwrite the provenance fields and add the
warning.  (`image2 = cv2.resize(...)` rebinds a local name, so the caller's
arrays are untouched; only the returned dictionary is relevant.) -/
noncomputable def detect_changes (image1 image2 : Image) : Option Result :=
  (if dims image1 ≠ dims image2 then
      cv2_resize image2 ((dims image1).2, (dims image1).1)
    else some image2).bind fun image2' =>
  (detect_changes_with_real_bands (simulate_bands_from_rgb image1)
      (simulate_bands_from_rgb image2')).map fun p =>
    { p.2 with
      data_source := "Simulated Bands (Demo Mode - NOT ACCURATE)"
      bands_used := "RGB-derived (not real multispectral)"
      warning := some legacyWarning }

/-! ### Helper lemmas -/

theorem lookup_map_value (f : Raster → Raster) (b : Bands) (k : String) :
    (b.map fun kv => (kv.1, f kv.2)).lookup k = (b.lookup k).map f := by
  induction b with
  | nil => rfl
  | cons kv t ih =>
    by_cases h : k == kv.1
    · simp [List.lookup, h]
    · simp [List.lookup, h, ih]

theorem cv2_resize_pos {α : Type} [Inhabited α] {src : Mat α}
    {dsize : ℕ × ℕ} (h1 : 0 < (dims src).1) (h2 : 0 < (dims src).2)
    (hw : 0 < dsize.1) (hh : 0 < dsize.2) :
    cv2_resize src dsize = some (resizeSample src dsize) := by
  unfold cv2_resize
  rw [if_pos ⟨h1, h2, hw, hh⟩]

theorem cv2_resize_eq_some {α : Type} [Inhabited α] {src : Mat α}
    {dsize : ℕ × ℕ} {m : Mat α} (h : cv2_resize src dsize = some m) :
    m = resizeSample src dsize := by
  unfold cv2_resize at h
  by_cases hc : 0 < (dims src).1 ∧ 0 < (dims src).2 ∧
      0 < dsize.1 ∧ 0 < dsize.2
  · rw [if_pos hc] at h
    exact (Option.some_inj.mp h).symm
  · rw [if_neg hc] at h
    exact Option.noConfusion h

theorem resizeAll_ok {dsize : ℕ × ℕ} (hw : 0 < dsize.1) (hh : 0 < dsize.2) :
    ∀ {b : Bands}, (∀ kv ∈ b, 0 < (dims kv.2).1 ∧ 0 < (dims kv.2).2) →
      resizeAll dsize b =
        some (b.map fun kv => (kv.1, resizeSample kv.2 dsize)) := by
  intro b
  induction b with
  | nil => intro _; rfl
  | cons kv t ih =>
    intro h
    have hkv := h kv (List.mem_cons_self ..)
    rw [resizeAll, cv2_resize_pos hkv.1 hkv.2 hw hh, Option.some_bind,
      ih fun x hx => h x (List.mem_cons_of_mem _ hx), Option.some_bind,
      List.map_cons]

theorem resizeAll_eq_some {dsize : ℕ × ℕ} :
    ∀ {b b' : Bands}, resizeAll dsize b = some b' →
      b' = b.map fun kv => (kv.1, resizeSample kv.2 dsize) := by
  intro b
  induction b with
  | nil =>
    intro b' h
    rw [resizeAll] at h
    simpa using (Option.some_inj.mp h).symm
  | cons kv t ih =>
    intro b' h
    rw [resizeAll] at h
    rcases hr : cv2_resize kv.2 dsize with _ | v <;> rw [hr] at h
    · simp at h
    rw [Option.some_bind] at h
    rcases ht : resizeAll dsize t with _ | t' <;> rw [ht] at h
    · simp at h
    rw [Option.some_bind, Option.some_inj] at h
    rw [← h, List.map_cons, ← ih ht, cv2_resize_eq_some hr]

theorem resampleStep_eq_some {b1 b2 b2' : Bands}
    (h : resampleStep b1 b2 = some b2') :
    ∃ n1 n2, b1.lookup "nir" = some n1 ∧ b2.lookup "nir" = some n2 ∧
      ((dims n1 = dims n2 ∧ b2' = b2) ∨
       (dims n1 ≠ dims n2 ∧
        b2' = b2.map fun kv =>
          (kv.1, resizeSample kv.2 ((dims n1).2, (dims n1).1)))) := by
  unfold resampleStep at h
  rcases hn1 : b1.lookup "nir" with _ | n1
  · rw [hn1] at h; simp at h
  rcases hn2 : b2.lookup "nir" with _ | n2
  · rw [hn1, hn2] at h; simp at h
  rw [hn1, hn2] at h
  simp only [Option.some_bind] at h
  by_cases hd : dims n1 = dims n2
  · rw [if_neg (by simpa using hd)] at h
    exact ⟨n1, n2, rfl, rfl, Or.inl ⟨hd, (Option.some_inj.mp h).symm⟩⟩
  · rw [if_pos hd] at h
    exact ⟨n1, n2, rfl, rfl, Or.inr ⟨hd, resizeAll_eq_some h⟩⟩

theorem resampleStep_same {b1 b2 : Bands} {n1 n2 : Raster}
    (h1 : b1.lookup "nir" = some n1) (h2 : b2.lookup "nir" = some n2)
    (hd : dims n1 = dims n2) : resampleStep b1 b2 = some b2 := by
  unfold resampleStep
  rw [h1, h2]
  simp only [Option.some_bind]
  rw [if_neg (by simpa using hd)]

theorem resampleStep_resized {b1 b2 : Bands} {n1 n2 : Raster}
    (h1 : b1.lookup "nir" = some n1) (h2 : b2.lookup "nir" = some n2)
    (hd : dims n1 ≠ dims n2) (hh : 0 < (dims n1).1) (hw : 0 < (dims n1).2)
    (hok : ∀ kv ∈ b2, 0 < (dims kv.2).1 ∧ 0 < (dims kv.2).2) :
    resampleStep b1 b2 =
      some (b2.map fun kv =>
        (kv.1, resizeSample kv.2 ((dims n1).2, (dims n1).1))) := by
  unfold resampleStep
  rw [h1, h2]
  simp only [Option.some_bind]
  rw [if_pos hd]
  exact resizeAll_ok hw hh hok

theorem computeResult_eq_some {b1 b2 : Bands} {res : Result}
    (h : computeResult b1 b2 = some res) :
    ∃ n1 r1 n2 r2 s1 s2,
      b1.lookup "nir" = some n1 ∧ b1.lookup "red" = some r1 ∧
      b2.lookup "nir" = some n2 ∧ b2.lookup "red" = some r2 ∧
      b1.lookup "swir" = some s1 ∧ b2.lookup "swir" = some s2 ∧
      bandGuard n1 r1 s1 n2 r2 s2 ∧ res = mkResult n1 r1 s1 n2 r2 s2 := by
  unfold computeResult at h
  rcases hn1 : b1.lookup "nir" with _ | n1 <;> rw [hn1] at h
  · simp at h
  rcases hr1 : b1.lookup "red" with _ | r1 <;> rw [hr1] at h
  · simp at h
  rcases hn2 : b2.lookup "nir" with _ | n2 <;> rw [hn2] at h
  · simp at h
  rcases hr2 : b2.lookup "red" with _ | r2 <;> rw [hr2] at h
  · simp at h
  rcases hs1 : b1.lookup "swir" with _ | s1 <;> rw [hs1] at h
  · simp at h
  rcases hs2 : b2.lookup "swir" with _ | s2 <;> rw [hs2] at h
  · simp at h
  simp only [Option.some_bind] at h
  by_cases hg : bandGuard n1 r1 s1 n2 r2 s2
  · rw [if_pos hg] at h
    exact ⟨n1, r1, n2, r2, s1, s2, rfl, rfl, rfl, rfl, rfl, rfl, hg,
      (Option.some_inj.mp h).symm⟩
  · rw [if_neg hg] at h; simp at h

theorem computeResult_some {b1 b2 : Bands} {n1 r1 n2 r2 s1 s2 : Raster}
    (hn1 : b1.lookup "nir" = some n1) (hr1 : b1.lookup "red" = some r1)
    (hn2 : b2.lookup "nir" = some n2) (hr2 : b2.lookup "red" = some r2)
    (hs1 : b1.lookup "swir" = some s1) (hs2 : b2.lookup "swir" = some s2)
    (hg : bandGuard n1 r1 s1 n2 r2 s2) :
    computeResult b1 b2 = some (mkResult n1 r1 s1 n2 r2 s2) := by
  unfold computeResult
  rw [hn1, hr1, hn2, hr2, hs1, hs2]
  simp only [Option.some_bind]
  rw [if_pos hg]

theorem detect_eq_some {b1 b2 : Bands} {p : Bands × Result}
    (h : detect_changes_with_real_bands b1 b2 = some p) :
    resampleStep b1 b2 = some p.1 ∧ computeResult b1 p.1 = some p.2 := by
  unfold detect_changes_with_real_bands at h
  rcases hr : resampleStep b1 b2 with _ | b2' <;> rw [hr] at h
  · simp at h
  rw [Option.some_bind] at h
  rcases hc : computeResult b1 b2' with _ | res <;> rw [hc] at h
  · simp at h
  rw [Option.some_bind, Option.some_inj] at h
  subst h
  exact ⟨rfl, hc⟩

theorem detect_some {b1 b2 b2' : Bands} {res : Result}
    (hr : resampleStep b1 b2 = some b2')
    (hc : computeResult b1 b2' = some res) :
    detect_changes_with_real_bands b1 b2 = some (b2', res) := by
  unfold detect_changes_with_real_bands
  rw [hr]
  simp only [Option.some_bind]
  rw [hc]
  rfl

theorem mem_zipWith {α β γ : Type} {f : α → β → γ} :
    ∀ {l1 : List α} {l2 : List β} {c : γ}, c ∈ List.zipWith f l1 l2 →
      ∃ a ∈ l1, ∃ b ∈ l2, c = f a b := by
  intro l1
  induction l1 with
  | nil => intro l2 c h; simp at h
  | cons a t ih =>
    intro l2 c h
    cases l2 with
    | nil => simp at h
    | cons b t2 =>
      rcases List.mem_cons.mp h with h | h
      · exact ⟨a, List.mem_cons_self .., b, List.mem_cons_self .., h⟩
      · obtain ⟨x, hx, y, hy, hxy⟩ := ih h
        exact ⟨x, List.mem_cons_of_mem _ hx, y, List.mem_cons_of_mem _ hy, hxy⟩

theorem mem_zip3With {α β γ δ : Type} {f : α → β → γ → δ} :
    ∀ {l1 : List α} {l2 : List β} {l3 : List γ} {d : δ},
      d ∈ zip3With f l1 l2 l3 →
      ∃ a ∈ l1, ∃ b ∈ l2, ∃ c ∈ l3, d = f a b c := by
  intro l1
  induction l1 with
  | nil => intro l2 l3 d h; simp [zip3With] at h
  | cons a t ih =>
    intro l2 l3 d h
    cases l2 with
    | nil => simp [zip3With] at h
    | cons b t2 =>
      cases l3 with
      | nil => simp [zip3With] at h
      | cons c t3 =>
        rcases List.mem_cons.mp h with h | h
        · exact ⟨a, List.mem_cons_self .., b, List.mem_cons_self ..,
            c, List.mem_cons_self .., h⟩
        · obtain ⟨x, hx, y, hy, z, hz, hxyz⟩ := ih h
          exact ⟨x, List.mem_cons_of_mem _ hx, y, List.mem_cons_of_mem _ hy,
            z, List.mem_cons_of_mem _ hz, hxyz⟩

theorem length_zip3With {α β γ δ : Type} {f : α → β → γ → δ} :
    ∀ (l1 : List α) (l2 : List β) (l3 : List γ),
      (zip3With f l1 l2 l3).length = min l1.length (min l2.length l3.length)
  | [], l2, l3 => by simp [zip3With]
  | a :: t, [], l3 => by simp [zip3With]
  | a :: t, b :: t2, [] => by simp [zip3With]
  | a :: t, b :: t2, c :: t3 => by
    simp [zip3With, length_zip3With t t2 t3, Nat.succ_min_succ]

theorem hasShape_map2 {α β γ : Type} {f : α → β → γ} {a : Mat α} {b : Mat β}
    {R C : ℕ} (ha : hasShape a R C) (hb : hasShape b R C) :
    hasShape (map2 f a b) R C := by
  constructor
  · simp [map2, List.length_zipWith, ha.1, hb.1]
  · intro row hrow
    obtain ⟨ra, hra, rb, hrb, rfl⟩ := mem_zipWith hrow
    simp [List.length_zipWith, ha.2 ra hra, hb.2 rb hrb]

theorem hasShape_map3 {α β γ δ : Type} {f : α → β → γ → δ} {a : Mat α}
    {b : Mat β} {c : Mat γ} {R C : ℕ} (ha : hasShape a R C)
    (hb : hasShape b R C) (hc : hasShape c R C) :
    hasShape (map3 f a b c) R C := by
  constructor
  · simp [map3, length_zip3With, ha.1, hb.1, hc.1]
  · intro row hrow
    obtain ⟨ra, hra, rb, hrb, rc, hrc, rfl⟩ := mem_zip3With hrow
    simp [length_zip3With, ha.2 ra hra, hb.2 rb hrb, hc.2 rc hrc]

theorem hasShape_matMap {α β : Type} {f : α → β} {m : Mat α} {R C : ℕ}
    (hm : hasShape m R C) : hasShape (matMap f m) R C := by
  constructor
  · simp [matMap, hm.1]
  · intro row hrow
    obtain ⟨r, hr, rfl⟩ := List.mem_map.mp hrow
    simp [hm.2 r hr]

theorem hasShape_resizeSample {α : Type} [Inhabited α] (src : Mat α) (w h : ℕ) :
    hasShape (resizeSample src (w, h)) h w := by
  constructor
  · simp [resizeSample]
  · intro row hrow
    obtain ⟨i, _, rfl⟩ := List.mem_map.mp hrow
    simp

theorem dims_of_hasShape {α : Type} {m : Mat α} {R C : ℕ}
    (h : hasShape m R C) (hR : 0 < R) : dims m = (R, C) := by
  obtain ⟨hlen, hrow⟩ := h
  cases m with
  | nil => simp at hlen; omega
  | cons r t => simp [dims, hlen, hrow r (List.mem_cons_self ..)]

theorem hasShape_cva_normalize {m : Mat ℝ} {R C : ℕ}
    (h : hasShape m R C) : hasShape (cva_normalize m) R C :=
  hasShape_matMap h

theorem dims_map2 {α β γ : Type} {f : α → β → γ} (a : Mat α) (b : Mat β) :
    dims (map2 f a b) =
      (min (dims a).1 (dims b).1, min (dims a).2 (dims b).2) := by
  cases a with
  | nil => simp [dims, map2]
  | cons ra ta =>
    cases b with
    | nil => simp [dims, map2]
    | cons rb tb => simp [dims, map2, List.length_zipWith]; omega

theorem dims_map3 {α β γ δ : Type} {f : α → β → γ → δ} (a : Mat α)
    (b : Mat β) (c : Mat γ) :
    dims (map3 f a b c) =
      (min (dims a).1 (min (dims b).1 (dims c).1),
       min (dims a).2 (min (dims b).2 (dims c).2)) := by
  cases a with
  | nil => simp [dims, map3, zip3With]
  | cons ra ta =>
    cases b with
    | nil => simp [dims, map3, zip3With]
    | cons rb tb =>
      cases c with
      | nil => simp [dims, map3, zip3With]
      | cons rc tc => simp [dims, map3, zip3With, length_zip3With]; omega

theorem dims_matMap {α β : Type} {f : α → β} (m : Mat α) :
    dims (matMap f m) = dims m := by
  cases m with
  | nil => simp [dims, matMap]
  | cons r t => simp [dims, matMap]

theorem dims_cva_normalize (m : Mat ℝ) : dims (cva_normalize m) = dims m :=
  dims_matMap m

theorem flatten_ne_nil {α : Type} {m : Mat α} (h1 : 0 < (dims m).1)
    (h2 : 0 < (dims m).2) : m.flatten ≠ [] := by
  cases m with
  | nil => simp [dims] at h1
  | cons r t =>
    simp only [dims, List.headD_cons] at h2
    cases r with
    | nil => simp at h2
    | cons x rt => simp

theorem flatten_matMap {α β : Type} (f : α → β) (m : Mat α) :
    (matMap f m).flatten = m.flatten.map f := by
  induction m with
  | nil => simp [matMap]
  | cons r t ih =>
    simp only [matMap, List.map_cons, List.flatten_cons, List.map_append]
    simp only [matMap] at ih
    rw [ih]

theorem listMin_le : ∀ {l : List ℝ} {x : ℝ}, x ∈ l → listMin l ≤ x := by
  intro l
  induction l with
  | nil => intro x hx; simp at hx
  | cons a t ih =>
    intro x hx
    rcases t with _ | ⟨b, t2⟩
    · simp at hx
      simp [listMin, hx]
    · rcases List.mem_cons.mp hx with h | h
      · rw [listMin, h]; exact min_le_left ..
      · exact le_trans (min_le_right ..) (ih h)

theorem le_listMax : ∀ {l : List ℝ} {x : ℝ}, x ∈ l → x ≤ listMax l := by
  intro l
  induction l with
  | nil => intro x hx; simp at hx
  | cons a t ih =>
    intro x hx
    rcases t with _ | ⟨b, t2⟩
    · simp at hx
      simp [listMax, hx]
    · rcases List.mem_cons.mp hx with h | h
      · rw [listMax, h]; exact le_max_left ..
      · exact le_trans (ih h) (le_max_right ..)

theorem listMin_le_listMax {l : List ℝ} (h : l ≠ []) :
    listMin l ≤ listMax l := by
  rcases l with _ | ⟨a, t⟩
  · exact absurd rfl h
  · exact le_trans (listMin_le (List.mem_cons_self ..))
      (le_listMax (List.mem_cons_self ..))

theorem listMin_map_mono {f : ℝ → ℝ} (hf : Monotone f) :
    ∀ {l : List ℝ}, l ≠ [] → listMin (l.map f) = f (listMin l) := by
  intro l
  induction l with
  | nil => intro h; exact absurd rfl h
  | cons a t ih =>
    intro _
    rcases t with _ | ⟨b, t2⟩
    · simp [listMin]
    · have ht : (b :: t2 : List ℝ) ≠ [] := by simp
      simp only [List.map_cons] at ih ⊢
      rw [listMin, listMin, ih ht, ← hf.map_min]

theorem listMax_map_mono {f : ℝ → ℝ} (hf : Monotone f) :
    ∀ {l : List ℝ}, l ≠ [] → listMax (l.map f) = f (listMax l) := by
  intro l
  induction l with
  | nil => intro h; exact absurd rfl h
  | cons a t ih =>
    intro _
    rcases t with _ | ⟨b, t2⟩
    · simp [listMax]
    · have ht : (b :: t2 : List ℝ) ≠ [] := by simp
      simp only [List.map_cons] at ih ⊢
      rw [listMax, listMax, ih ht, ← hf.map_max]

theorem listMin_const : ∀ {l : List ℝ} {c : ℝ}, l ≠ [] →
    (∀ x ∈ l, x = c) → listMin l = c := by
  intro l
  induction l with
  | nil => intro c h; exact absurd rfl h
  | cons a t ih =>
    intro c _ hall
    rcases t with _ | ⟨b, t2⟩
    · simp [listMin, hall a (List.mem_cons_self ..)]
    · rw [listMin, ih (by simp) fun x hx => hall x (List.mem_cons_of_mem _ hx),
        hall a (List.mem_cons_self ..), min_self]

theorem listMax_const : ∀ {l : List ℝ} {c : ℝ}, l ≠ [] →
    (∀ x ∈ l, x = c) → listMax l = c := by
  intro l
  induction l with
  | nil => intro c h; exact absurd rfl h
  | cons a t ih =>
    intro c _ hall
    rcases t with _ | ⟨b, t2⟩
    · simp [listMax, hall a (List.mem_cons_self ..)]
    · rw [listMax, ih (by simp) fun x hx => hall x (List.mem_cons_of_mem _ hx),
        hall a (List.mem_cons_self ..), max_self]

theorem count_partition {lo hi : ℝ} (hlh : lo ≤ hi) :
    ∀ l : List ℝ,
      countBelow lo l + countBetween lo hi l + countAtLeast hi l = l.length := by
  intro l
  induction l with
  | nil => simp [countBelow, countBetween, countAtLeast]
  | cons x t ih =>
    rw [countBelow, countBetween, countAtLeast, List.length_cons]
    rcases lt_or_le x lo with h1 | h1
    · rw [if_pos h1, if_neg (fun hc => absurd h1 (not_lt.mpr hc.1)),
        if_neg (not_le.mpr (lt_of_lt_of_le h1 hlh))]
      omega
    · rcases lt_or_le x hi with h2 | h2
      · rw [if_neg (not_lt.mpr h1), if_pos ⟨h1, h2⟩, if_neg (not_le.mpr h2)]
        omega
      · rw [if_neg (not_lt.mpr h1),
          if_neg (fun hc => absurd hc.2 (not_lt.mpr h2)), if_pos h2]
        omega

theorem countBelow_all {c : ℝ} : ∀ {l : List ℝ}, (∀ x ∈ l, x < c) →
    countBelow c l = l.length := by
  intro l
  induction l with
  | nil => intro _; rfl
  | cons x t ih =>
    intro h
    rw [countBelow, if_pos (h x (List.mem_cons_self ..)),
      ih fun y hy => h y (List.mem_cons_of_mem _ hy), List.length_cons]
    omega

theorem countBetween_zero {lo hi : ℝ} : ∀ {l : List ℝ},
    (∀ x ∈ l, x < lo) → countBetween lo hi l = 0 := by
  intro l
  induction l with
  | nil => intro _; rfl
  | cons x t ih =>
    intro h
    rw [countBetween,
      if_neg (fun hc => absurd (h x (List.mem_cons_self ..)) (not_lt.mpr hc.1)),
      ih fun y hy => h y (List.mem_cons_of_mem _ hy)]

theorem countAtLeast_zero {c : ℝ} : ∀ {l : List ℝ},
    (∀ x ∈ l, x < c) → countAtLeast c l = 0 := by
  intro l
  induction l with
  | nil => intro _; rfl
  | cons x t ih =>
    intro h
    rw [countAtLeast,
      if_neg (not_le.mpr (h x (List.mem_cons_self ..))),
      ih fun y hy => h y (List.mem_cons_of_mem _ hy)]

theorem dims_matSub (a b : Raster) :
    dims (matSub a b) =
      (min (dims a).1 (dims b).1, min (dims a).2 (dims b).2) :=
  dims_map2 a b

theorem dims_calculate_ndvi (a b : Raster) :
    dims (calculate_ndvi a b) =
      (min (dims a).1 (dims b).1, min (dims a).2 (dims b).2) :=
  dims_map2 a b

theorem dims_calculate_ndmi (a b : Raster) :
    dims (calculate_ndmi a b) =
      (min (dims a).1 (dims b).1, min (dims a).2 (dims b).2) :=
  dims_map2 a b

theorem dims_calculate_ndbi (a b : Raster) :
    dims (calculate_ndbi a b) =
      (min (dims a).1 (dims b).1, min (dims a).2 (dims b).2) :=
  dims_map2 a b

theorem dims_rawMagnitude {n1 r1 s1 n2 r2 s2 : Raster}
    (hg : bandGuard n1 r1 s1 n2 r2 s2) :
    dims (rawMagnitude n1 r1 s1 n2 r2 s2) = dims n1 := by
  obtain ⟨h1, h2, h3, h4, h5, _, _⟩ := hg
  unfold rawMagnitude
  simp [dims_map3, dims_matSub, dims_calculate_ndvi, dims_calculate_ndmi,
    dims_calculate_ndbi, h1, h2, h3, h4, h5]

theorem cvaN_flatten_ne_nil {n1 r1 s1 n2 r2 s2 : Raster}
    (hg : bandGuard n1 r1 s1 n2 r2 s2) :
    (cva_normalize (rawMagnitude n1 r1 s1 n2 r2 s2)).flatten ≠ [] := by
  have hd : dims (cva_normalize (rawMagnitude n1 r1 s1 n2 r2 s2)) = dims n1 := by
    rw [dims_cva_normalize, dims_rawMagnitude hg]
  exact flatten_ne_nil (by rw [hd]; exact hg.2.2.2.2.2.1)
    (by rw [hd]; exact hg.2.2.2.2.2.2)

theorem mkResult_no_change (n1 r1 s1 n2 r2 s2 : Raster) :
    (mkResult n1 r1 s1 n2 r2 s2).no_change_percent =
      (countBelow 0.2 (cva_normalize (rawMagnitude n1 r1 s1 n2 r2 s2)).flatten : ℝ) /
        ((cva_normalize (rawMagnitude n1 r1 s1 n2 r2 s2)).flatten.length : ℝ) * 100 :=
  rfl

theorem mkResult_moderate (n1 r1 s1 n2 r2 s2 : Raster) :
    (mkResult n1 r1 s1 n2 r2 s2).moderate_change_percent =
      (countBetween 0.2 0.5 (cva_normalize (rawMagnitude n1 r1 s1 n2 r2 s2)).flatten : ℝ) /
        ((cva_normalize (rawMagnitude n1 r1 s1 n2 r2 s2)).flatten.length : ℝ) * 100 :=
  rfl

theorem mkResult_significant (n1 r1 s1 n2 r2 s2 : Raster) :
    (mkResult n1 r1 s1 n2 r2 s2).significant_change_percent =
      (countAtLeast 0.5 (cva_normalize (rawMagnitude n1 r1 s1 n2 r2 s2)).flatten : ℝ) /
        ((cva_normalize (rawMagnitude n1 r1 s1 n2 r2 s2)).flatten.length : ℝ) * 100 :=
  rfl

theorem mkResult_cva (n1 r1 s1 n2 r2 s2 : Raster) :
    (mkResult n1 r1 s1 n2 r2 s2).cva_magnitude =
      cva_normalize (rawMagnitude n1 r1 s1 n2 r2 s2) :=
  rfl

theorem mkResult_ndvi (n1 r1 s1 n2 r2 s2 : Raster) :
    (mkResult n1 r1 s1 n2 r2 s2).ndvi_change =
      matSub (calculate_ndvi n2 r2) (calculate_ndvi n1 r1) :=
  rfl

theorem mkResult_ndmi (n1 r1 s1 n2 r2 s2 : Raster) :
    (mkResult n1 r1 s1 n2 r2 s2).ndmi_change =
      matSub (calculate_ndmi n2 s2) (calculate_ndmi n1 s1) :=
  rfl

theorem mkResult_ndbi (n1 r1 s1 n2 r2 s2 : Raster) :
    (mkResult n1 r1 s1 n2 r2 s2).ndbi_change =
      matSub (calculate_ndbi s2 n2) (calculate_ndbi s1 n1) :=
  rfl

theorem mkResult_tags (n1 r1 s1 n2 r2 s2 : Raster) :
    (mkResult n1 r1 s1 n2 r2 s2).data_source =
        "Real Satellite Bands (Landsat/Sentinel)" ∧
      (mkResult n1 r1 s1 n2 r2 s2).bands_used =
        "NIR, Red, SWIR (multispectral)" ∧
      (mkResult n1 r1 s1 n2 r2 s2).warning = none :=
  ⟨rfl, rfl, rfl⟩

theorem mkResult_percent_sum {n1 r1 s1 n2 r2 s2 : Raster}
    (hg : bandGuard n1 r1 s1 n2 r2 s2) :
    (mkResult n1 r1 s1 n2 r2 s2).no_change_percent +
      (mkResult n1 r1 s1 n2 r2 s2).moderate_change_percent +
      (mkResult n1 r1 s1 n2 r2 s2).significant_change_percent = 100 := by
  rw [mkResult_no_change, mkResult_moderate, mkResult_significant]
  set l := (cva_normalize (rawMagnitude n1 r1 s1 n2 r2 s2)).flatten with hl
  have hne : l ≠ [] := cvaN_flatten_ne_nil hg
  have hlen : (l.length : ℝ) ≠ 0 := by
    have : l.length ≠ 0 := fun h => hne (List.eq_nil_of_length_eq_zero h)
    exact_mod_cast this
  have hpart : countBelow 0.2 l + countBetween 0.2 0.5 l +
      countAtLeast 0.5 l = l.length := count_partition (by norm_num) l
  have hpart' : (countBelow 0.2 l : ℝ) + (countBetween 0.2 0.5 l : ℝ) +
      (countAtLeast 0.5 l : ℝ) = (l.length : ℝ) := by exact_mod_cast hpart
  field_simp
  linarith [hpart']

theorem cvaPixel_zero : cvaPixel 0 0 0 = 0 := by
  simp [cvaPixel]

theorem zipWith_sub_self (l : List ℚ) :
    ∀ x ∈ List.zipWith (· - ·) l l, x = 0 := by
  induction l with
  | nil => intro x hx; simp at hx
  | cons a t ih =>
    intro x hx
    rw [List.zipWith_cons_cons] at hx
    rcases List.mem_cons.mp hx with h | h
    · rw [h]; exact sub_self a
    · exact ih x h

theorem matSub_self_flatten (m : Raster) :
    ∀ x ∈ (matSub m m).flatten, x = 0 := by
  induction m with
  | nil => intro x hx; simp [matSub, map2] at hx
  | cons r t ih =>
    intro x hx
    simp only [matSub, map2, List.zipWith_cons_cons, List.flatten_cons] at hx
    rcases List.mem_append.mp hx with h | h
    · exact zipWith_sub_self r x h
    · exact ih x (by simpa [matSub, map2] using h)

theorem rawMagnitude_self_zero (n r s : Raster) :
    ∀ y ∈ (rawMagnitude n r s n r s).flatten, y = 0 := by
  intro y hy
  unfold rawMagnitude map3 at hy
  obtain ⟨row, hrow, hyrow⟩ := List.mem_flatten.mp hy
  obtain ⟨ra, hra, rb, hrb, rc, hrc, rfl⟩ := mem_zip3With hrow
  obtain ⟨a, ha, b, hb, c, hc, rfl⟩ := mem_zip3With hyrow
  have hA := matSub_self_flatten (calculate_ndvi n r) a
    (List.mem_flatten.mpr ⟨ra, hra, ha⟩)
  have hB := matSub_self_flatten (calculate_ndmi n s) b
    (List.mem_flatten.mpr ⟨rb, hrb, hb⟩)
  have hC := matSub_self_flatten (calculate_ndbi s n) c
    (List.mem_flatten.mpr ⟨rc, hrc, hc⟩)
  rw [hA, hB, hC]
  exact cvaPixel_zero

theorem normalizer_denom_pos {M : Mat ℝ} (hne : M.flatten ≠ []) :
    (0 : ℝ) < listMax M.flatten - listMin M.flatten + 1e-8 := by
  have h := listMin_le_listMax hne
  have : (0 : ℝ) < 1e-8 := by norm_num
  linarith

theorem normalizer_mono {M : Mat ℝ} (hne : M.flatten ≠ []) :
    Monotone (fun m : ℝ =>
      (m - listMin M.flatten) /
        (listMax M.flatten - listMin M.flatten + 1e-8)) := by
  intro a b hab
  exact (div_le_div_right (normalizer_denom_pos hne)).mpr
    (sub_le_sub_right hab _)

theorem cva_normalize_flatten (M : Mat ℝ) :
    (cva_normalize M).flatten =
      M.flatten.map (fun m =>
        (m - listMin M.flatten) /
          (listMax M.flatten - listMin M.flatten + 1e-8)) := by
  unfold cva_normalize
  exact flatten_matMap _ M

theorem cva_normalize_min {M : Mat ℝ} (hne : M.flatten ≠ []) :
    listMin (cva_normalize M).flatten = 0 := by
  rw [cva_normalize_flatten, listMin_map_mono (normalizer_mono hne) hne,
    sub_self, zero_div]

theorem cva_normalize_max {M : Mat ℝ} (hne : M.flatten ≠ []) :
    listMax (cva_normalize M).flatten =
      (listMax M.flatten - listMin M.flatten) /
        (listMax M.flatten - listMin M.flatten + 1e-8) := by
  rw [cva_normalize_flatten, listMax_map_mono (normalizer_mono hne) hne]

theorem cva_normalize_max_lt_one {M : Mat ℝ} (hne : M.flatten ≠ []) :
    listMax (cva_normalize M).flatten < 1 := by
  rw [cva_normalize_max hne]
  have hD := normalizer_denom_pos hne
  rw [div_lt_one hD]
  have : (0 : ℝ) < 1e-8 := by norm_num
  linarith

theorem cva_normalize_flat {M : Mat ℝ} (hne : M.flatten ≠ [])
    (h : ∀ x ∈ M.flatten, x = listMin M.flatten) :
    ∀ y ∈ (cva_normalize M).flatten, y = 0 := by
  intro y hy
  rw [cva_normalize_flatten] at hy
  obtain ⟨x, hx, rfl⟩ := List.mem_map.mp hy
  rw [h x hx, sub_self, zero_div]

theorem ndPixel_row_zero :
    ∀ (l1 l2 : List ℚ) (j : ℕ), l1.getD j 0 + l2.getD j 0 = 0 →
      (List.zipWith ndPixel l1 l2).getD j 0 = 0 := by
  intro l1
  induction l1 with
  | nil => intro l2 j _; simp
  | cons a t ih =>
    intro l2 j h
    cases l2 with
    | nil => simp
    | cons b t2 =>
      cases j with
      | zero =>
        simp only [List.getD_cons_zero] at h
        simp [ndPixel, h]
      | succ j =>
        simp only [List.getD_cons_succ] at h ⊢
        rw [List.zipWith_cons_cons]
        simpa using ih t2 j h

theorem ndPixel_mat_zero (m1 m2 : Raster) (i j : ℕ)
    (h : pixel m1 i j + pixel m2 i j = 0) :
    pixel (map2 ndPixel m1 m2) i j = 0 := by
  induction m1 generalizing m2 i with
  | nil => simp [pixel, map2]
  | cons r t ih =>
    cases m2 with
    | nil => simp [pixel, map2]
    | cons r2 t2 =>
      cases i with
      | zero =>
        simp only [pixel, List.getD_cons_zero] at h ⊢
        rw [map2, List.zipWith_cons_cons, List.getD_cons_zero]
        exact ndPixel_row_zero r r2 j h
      | succ i =>
        simp only [pixel, List.getD_cons_succ] at h ⊢
        rw [map2, List.zipWith_cons_cons, List.getD_cons_succ]
        exact ih t2 i h

theorem ndPixel_bounds (a b : ℚ) (ha : 0 ≤ a) (hb : 0 ≤ b) :
    -1 ≤ ndPixel a b ∧ ndPixel a b ≤ 1 := by
  unfold ndPixel
  by_cases h : a + b = 0
  · rw [if_pos h]; norm_num
  · rw [if_neg h]
    have hpos : 0 < a + b := lt_of_le_of_ne (add_nonneg ha hb) (Ne.symm h)
    constructor
    · rw [le_div_iff hpos]; linarith
    · rw [div_le_one hpos]; linarith

theorem ndPixel_row_bounds :
    ∀ (l1 l2 : List ℚ) (j : ℕ), 0 ≤ l1.getD j 0 → 0 ≤ l2.getD j 0 →
      -1 ≤ (List.zipWith ndPixel l1 l2).getD j 0 ∧
        (List.zipWith ndPixel l1 l2).getD j 0 ≤ 1 := by
  intro l1
  induction l1 with
  | nil => intro l2 j _ _; norm_num
  | cons a t ih =>
    intro l2 j h1 h2
    cases l2 with
    | nil => norm_num
    | cons b t2 =>
      cases j with
      | zero =>
        simp only [List.getD_cons_zero] at h1 h2
        rw [List.zipWith_cons_cons, List.getD_cons_zero]
        exact ndPixel_bounds a b h1 h2
      | succ j =>
        simp only [List.getD_cons_succ] at h1 h2 ⊢
        rw [List.zipWith_cons_cons]
        simpa using ih t2 j h1 h2

theorem ndPixel_mat_bounds (m1 m2 : Raster) (i j : ℕ)
    (h1 : 0 ≤ pixel m1 i j) (h2 : 0 ≤ pixel m2 i j) :
    -1 ≤ pixel (map2 ndPixel m1 m2) i j ∧
      pixel (map2 ndPixel m1 m2) i j ≤ 1 := by
  induction m1 generalizing m2 i with
  | nil => norm_num [pixel, map2]
  | cons r t ih =>
    cases m2 with
    | nil => norm_num [pixel, map2]
    | cons r2 t2 =>
      cases i with
      | zero =>
        simp only [pixel, List.getD_cons_zero] at h1 h2 ⊢
        rw [map2, List.zipWith_cons_cons, List.getD_cons_zero]
        exact ndPixel_row_bounds r r2 j h1 h2
      | succ i =>
        simp only [pixel, List.getD_cons_succ] at h1 h2 ⊢
        rw [map2, List.zipWith_cons_cons, List.getD_cons_succ]
        exact ih t2 i h1 h2

/-! ### Claims -/

/-- C1: every index computation (`calculate_ndvi`, `calculate_ndmi`,
`calculate_ndbi`) applied to two rasters yields, at every pixel where the
denominator (the sum of the two operand bands) is exactly zero, the value
0.0 exactly; the functions are total (no exception for zero division), and
in this exact-arithmetic embedding the zero-fill branch is precisely the
neutralization of the NaN/Inf values the float formula would produce. -/
theorem C1_zero_denominator_pixels (a b : Raster) (i j : ℕ)
    (h : pixel a i j + pixel b i j = 0) :
    pixel (calculate_ndvi a b) i j = 0 ∧
      pixel (calculate_ndmi a b) i j = 0 ∧
      pixel (calculate_ndbi a b) i j = 0 :=
  ⟨ndPixel_mat_zero a b i j h, ndPixel_mat_zero a b i j h,
    ndPixel_mat_zero a b i j h⟩

/-- C1, witness: a 1×2 raster pair with a zero-sum pixel (0 + 0 and
5 + (−5)): all three indices return exactly 0 there. -/
theorem C1_zero_denominator_pixels_witness :
    pixel [[0, 5]] 0 1 + pixel [[0, -5]] 0 1 = 0 ∧
      pixel (calculate_ndvi [[0, 5]] [[0, -5]]) 0 1 = 0 ∧
      pixel (calculate_ndmi [[0, 5]] [[0, -5]]) 0 1 = 0 ∧
      pixel (calculate_ndbi [[0, 5]] [[0, -5]]) 0 1 = 0 :=
  ⟨by norm_num [pixel],
    C1_zero_denominator_pixels [[0, 5]] [[0, -5]] 0 1 (by norm_num [pixel])⟩

/-- C6: for every pair of rasters with non-negative samples (any valid
reflectance scaling), the NDVI raster is element-wise within [-1, 1]; with
the zero-fill convention it never holds a NaN or infinite value (every
pixel is a well-defined rational in the exact embedding). -/
theorem C6_ndvi_in_unit_range (nir red : Raster) (i j : ℕ)
    (h1 : 0 ≤ pixel nir i j) (h2 : 0 ≤ pixel red i j) :
    -1 ≤ pixel (calculate_ndvi nir red) i j ∧
      pixel (calculate_ndvi nir red) i j ≤ 1 :=
  ndPixel_mat_bounds nir red i j h1 h2

/-- C6, witness: NIR = 1, Red = 3 at the only pixel gives
NDVI = −1/2 ∈ [−1, 1]. -/
theorem C6_ndvi_in_unit_range_witness :
    (0 : ℚ) ≤ pixel [[1]] 0 0 ∧ (0 : ℚ) ≤ pixel [[3]] 0 0 ∧
      (-1 ≤ pixel (calculate_ndvi [[1]] [[3]]) 0 0 ∧
        pixel (calculate_ndvi [[1]] [[3]]) 0 0 ≤ 1) :=
  ⟨by norm_num [pixel], by norm_num [pixel],
    C6_ndvi_in_unit_range [[1]] [[3]] 0 0 (by norm_num [pixel])
      (by norm_num [pixel])⟩

/-- C5: for every input accepted by `detect_changes_with_real_bands`, the
three CVA tier percentages sum exactly to 100 (the tiers — normalized
magnitude below 0.2, in [0.2, 0.5), and at or above 0.5 — partition the
pixels, and each percentage is count/total·100). -/
theorem C5_tier_percentages_sum (b1 b2 : Bands) (p : Bands × Result)
    (h : detect_changes_with_real_bands b1 b2 = some p) :
    p.2.no_change_percent + p.2.moderate_change_percent +
      p.2.significant_change_percent = 100 := by
  obtain ⟨-, hc⟩ := detect_eq_some h
  obtain ⟨n1, r1, n2, r2, s1, s2, -, -, -, -, -, -, hg, hres⟩ :=
    computeResult_eq_some hc
  rw [hres]
  exact mkResult_percent_sum hg

/-- C5, witness: a concrete 1×2 run whose three percentages sum to 100. -/
theorem C5_tier_percentages_sum_witness :
    (detect_changes_with_real_bands
        [("nir", [[1, 3]]), ("red", [[2, 1]]), ("swir", [[4, 5]])]
        [("nir", [[2, 3]]), ("red", [[1, 1]]), ("swir", [[4, 7]])]).map
      (fun p => p.2.no_change_percent + p.2.moderate_change_percent +
        p.2.significant_change_percent) = some 100 := by
  have h1 : List.lookup "nir"
      [("nir", [[(1:ℚ), 3]]), ("red", [[2, 1]]), ("swir", [[4, 5]])] =
      some [[1, 3]] := by rfl
  have h2 : List.lookup "red"
      [("nir", [[(1:ℚ), 3]]), ("red", [[2, 1]]), ("swir", [[4, 5]])] =
      some [[2, 1]] := by rfl
  have h3 : List.lookup "swir"
      [("nir", [[(1:ℚ), 3]]), ("red", [[2, 1]]), ("swir", [[4, 5]])] =
      some [[4, 5]] := by rfl
  have h4 : List.lookup "nir"
      [("nir", [[(2:ℚ), 3]]), ("red", [[1, 1]]), ("swir", [[4, 7]])] =
      some [[2, 3]] := by rfl
  have h5 : List.lookup "red"
      [("nir", [[(2:ℚ), 3]]), ("red", [[1, 1]]), ("swir", [[4, 7]])] =
      some [[1, 1]] := by rfl
  have h6 : List.lookup "swir"
      [("nir", [[(2:ℚ), 3]]), ("red", [[1, 1]]), ("swir", [[4, 7]])] =
      some [[4, 7]] := by rfl
  have hg : bandGuard [[(1:ℚ), 3]] [[2, 1]] [[4, 5]] [[2, 3]] [[1, 1]]
      [[4, 7]] := by
    constructor <;> simp [dims]
  have hdet := detect_some (resampleStep_same h1 h4 rfl)
    (computeResult_some h1 h2 h4 h5 h3 h6 hg)
  rw [hdet, Option.map_some']
  exact congrArg some (C5_tier_percentages_sum _ _ _ hdet)

/-- C7: calling `detect_changes_with_real_bands` with two bit-for-bit
identical band sets yields all-zero NDVI/NDMI/NDBI change rasters, an
all-zero normalized magnitude raster, `no_change_percent = 100.0` and
`moderate_change_percent = significant_change_percent = 0.0`. -/
theorem C7_identical_band_sets (b : Bands) (p : Bands × Result)
    (h : detect_changes_with_real_bands b b = some p) :
    (∀ x ∈ p.2.ndvi_change.flatten, x = 0) ∧
      (∀ x ∈ p.2.ndmi_change.flatten, x = 0) ∧
      (∀ x ∈ p.2.ndbi_change.flatten, x = 0) ∧
      (∀ y ∈ p.2.cva_magnitude.flatten, y = 0) ∧
      p.2.no_change_percent = 100 ∧
      p.2.moderate_change_percent = 0 ∧
      p.2.significant_change_percent = 0 := by
  obtain ⟨hr, hc⟩ := detect_eq_some h
  obtain ⟨n1, n2, hn1, hn2, hcase⟩ := resampleStep_eq_some hr
  have hnn : n1 = n2 := by
    rw [hn1] at hn2
    exact Option.some_inj.mp hn2
  have hb2 : p.1 = b := by
    rcases hcase with ⟨-, hle⟩ | ⟨hne, -⟩
    · exact hle
    · exact absurd (by rw [hnn]) hne
  rw [hb2] at hc
  obtain ⟨m1, r1, m2, r2, s1, s2, hm1, hr1, hm2, hr2, hs1, hs2, hg, hres⟩ :=
    computeResult_eq_some hc
  have em : m1 = m2 := by rw [hm1] at hm2; exact Option.some_inj.mp hm2
  have er : r1 = r2 := by rw [hr1] at hr2; exact Option.some_inj.mp hr2
  have es : s1 = s2 := by rw [hs1] at hs2; exact Option.some_inj.mp hs2
  subst em
  subst er
  subst es
  have hrawne : (rawMagnitude m1 r1 s1 m1 r1 s1).flatten ≠ [] := by
    have hd := dims_rawMagnitude hg
    exact flatten_ne_nil (by rw [hd]; exact hg.2.2.2.2.2.1)
      (by rw [hd]; exact hg.2.2.2.2.2.2)
  have hraw0 := rawMagnitude_self_zero m1 r1 s1
  have hmn0 : listMin (rawMagnitude m1 r1 s1 m1 r1 s1).flatten = 0 :=
    listMin_const hrawne hraw0
  have hcva0 : ∀ y ∈ (cva_normalize (rawMagnitude m1 r1 s1 m1 r1 s1)).flatten,
      y = 0 :=
    cva_normalize_flat hrawne fun x hx => by rw [hmn0]; exact hraw0 x hx
  have hcvane : (cva_normalize (rawMagnitude m1 r1 s1 m1 r1 s1)).flatten ≠ [] :=
    cvaN_flatten_ne_nil hg
  have hlen : ((cva_normalize (rawMagnitude m1 r1 s1 m1 r1 s1)).flatten.length : ℝ) ≠ 0 := by
    have : (cva_normalize (rawMagnitude m1 r1 s1 m1 r1 s1)).flatten.length ≠ 0 :=
      fun hz => hcvane (List.eq_nil_of_length_eq_zero hz)
    exact_mod_cast this
  rw [hres]
  refine ⟨?_, ?_, ?_, ?_, ?_, ?_, ?_⟩
  · rw [mkResult_ndvi]; exact matSub_self_flatten _
  · rw [mkResult_ndmi]; exact matSub_self_flatten _
  · rw [mkResult_ndbi]; exact matSub_self_flatten _
  · rw [mkResult_cva]; exact hcva0
  · rw [mkResult_no_change]
    rw [countBelow_all fun y hy => by rw [hcva0 y hy]; norm_num]
    rw [div_self hlen, one_mul]
  · rw [mkResult_moderate]
    rw [countBetween_zero fun y hy => by rw [hcva0 y hy]; norm_num]
    simp
  · rw [mkResult_significant]
    rw [countAtLeast_zero fun y hy => by rw [hcva0 y hy]; norm_num]
    simp

/-- C7, witness: a concrete identical pair of 1×1 band sets produces
percentages (100, 0, 0). -/
theorem C7_identical_band_sets_witness :
    (detect_changes_with_real_bands
        [("nir", [[1]]), ("red", [[0]]), ("swir", [[2]])]
        [("nir", [[1]]), ("red", [[0]]), ("swir", [[2]])]).map
      (fun p => (p.2.no_change_percent, p.2.moderate_change_percent,
        p.2.significant_change_percent)) = some (100, 0, 0) := by
  have h1 : List.lookup "nir"
      [("nir", [[(1:ℚ)]]), ("red", [[0]]), ("swir", [[2]])] =
      some [[1]] := by rfl
  have h2 : List.lookup "red"
      [("nir", [[(1:ℚ)]]), ("red", [[0]]), ("swir", [[2]])] =
      some [[0]] := by rfl
  have h3 : List.lookup "swir"
      [("nir", [[(1:ℚ)]]), ("red", [[0]]), ("swir", [[2]])] =
      some [[2]] := by rfl
  have hg : bandGuard [[(1:ℚ)]] [[0]] [[2]] [[1]] [[0]] [[2]] := by
    constructor <;> simp [dims]
  have hdet := detect_some (resampleStep_same h1 h1 rfl)
    (computeResult_some h1 h2 h1 h2 h3 h3 hg)
  have hprops := C7_identical_band_sets _ _ hdet
  obtain ⟨-, -, -, -, ha, hb, hcp⟩ := hprops
  rw [hdet, Option.map_some']
  simp only [Option.some_inj, Prod.mk.injEq]
  exact ⟨ha, hb, hcp⟩

theorem rawMagnitude_flatten_ne_nil {n1 r1 s1 n2 r2 s2 : Raster}
    (hg : bandGuard n1 r1 s1 n2 r2 s2) :
    (rawMagnitude n1 r1 s1 n2 r2 s2).flatten ≠ [] := by
  have hd := dims_rawMagnitude hg
  exact flatten_ne_nil (by rw [hd]; exact hg.2.2.2.2.2.1)
    (by rw [hd]; exact hg.2.2.2.2.2.2)

/-- C2 (amended): for every accepted input the normalized magnitude raster
has minimum exactly 0.0 and maximum strictly below 1.0; the maximum equals
(max − min) / (max − min + 1e-8), which approaches 1.0 only when the raw
magnitude range is large relative to 1e-8 (so it is NOT 1.0 within floating
tolerance for every non-flat input); for a perfectly uniform raster the
normalized output is all zeros (no division-by-zero). -/
theorem C2_normalization_range_amended :
    (∀ (b1 b2 : Bands) (p : Bands × Result),
        detect_changes_with_real_bands b1 b2 = some p →
        listMin p.2.cva_magnitude.flatten = 0 ∧
          listMax p.2.cva_magnitude.flatten < 1) ∧
      (∀ M : Mat ℝ, M.flatten ≠ [] →
        listMax (cva_normalize M).flatten =
          (listMax M.flatten - listMin M.flatten) /
            (listMax M.flatten - listMin M.flatten + 1e-8)) ∧
      (∀ M : Mat ℝ, M.flatten ≠ [] →
        (∀ x ∈ M.flatten, x = listMin M.flatten) →
        ∀ y ∈ (cva_normalize M).flatten, y = 0) := by
  refine ⟨?_, ?_, ?_⟩
  · intro b1 b2 p h
    obtain ⟨-, hc⟩ := detect_eq_some h
    obtain ⟨n1, r1, n2, r2, s1, s2, -, -, -, -, -, -, hg, hres⟩ :=
      computeResult_eq_some hc
    rw [hres, mkResult_cva]
    have hne := rawMagnitude_flatten_ne_nil hg
    exact ⟨cva_normalize_min hne, cva_normalize_max_lt_one hne⟩
  · intro M hne
    exact cva_normalize_max hne
  · intro M hne hflat
    exact cva_normalize_flat hne hflat

/-- C2 (amended), witness: a concrete accepted run has normalized minimum
exactly 0 and maximum below 1, a concrete 1×2 raster instantiates the
max formula, and a flat 1×2 raster normalizes to all zeros (max 0). -/
theorem C2_normalization_range_amended_witness :
    (detect_changes_with_real_bands
        [("nir", [[2]]), ("red", [[1]]), ("swir", [[1]])]
        [("nir", [[2]]), ("red", [[1]]), ("swir", [[1]])]).map
      (fun p => listMin p.2.cva_magnitude.flatten) = some 0 ∧
      listMax (cva_normalize [[(3:ℝ), 7]]).flatten =
        (listMax ([[(3:ℝ), 7]] : Mat ℝ).flatten -
            listMin ([[(3:ℝ), 7]] : Mat ℝ).flatten) /
          (listMax ([[(3:ℝ), 7]] : Mat ℝ).flatten -
            listMin ([[(3:ℝ), 7]] : Mat ℝ).flatten + 1e-8) ∧
      listMax (cva_normalize [[(5:ℝ), 5]]).flatten = 0 := by
  have h1 : List.lookup "nir"
      [("nir", [[(2:ℚ)]]), ("red", [[1]]), ("swir", [[1]])] =
      some [[2]] := by rfl
  have h2 : List.lookup "red"
      [("nir", [[(2:ℚ)]]), ("red", [[1]]), ("swir", [[1]])] =
      some [[1]] := by rfl
  have h3 : List.lookup "swir"
      [("nir", [[(2:ℚ)]]), ("red", [[1]]), ("swir", [[1]])] =
      some [[1]] := by rfl
  have hg : bandGuard [[(2:ℚ)]] [[1]] [[1]] [[2]] [[1]] [[1]] := by
    constructor <;> simp [dims]
  have hdet := detect_some (resampleStep_same h1 h1 rfl)
    (computeResult_some h1 h2 h1 h2 h3 h3 hg)
  refine ⟨?_, ?_, ?_⟩
  · rw [hdet, Option.map_some']
    exact congrArg some
      ((C2_normalization_range_amended.1 _ _ _ hdet).1)
  · exact C2_normalization_range_amended.2.1 [[(3:ℝ), 7]] (by simp)
  · have hflat : ∀ x ∈ ([[(5:ℝ), 5]] : Mat ℝ).flatten,
        x = listMin ([[(5:ℝ), 5]] : Mat ℝ).flatten := by
      intro x hx
      simp only [List.flatten] at hx
      rw [show listMin ([[(5:ℝ), 5]] : Mat ℝ).flatten = 5 by
        rw [show ([[(5:ℝ), 5]] : Mat ℝ).flatten = [5, 5] by simp,
          listMin, listMin, min_self]]
      simpa using hx
    have hz := C2_normalization_range_amended.2.2 [[(5:ℝ), 5]] (by simp) hflat
    have hne : (cva_normalize [[(5:ℝ), 5]]).flatten ≠ [] := by
      rw [cva_normalize_flatten]
      simp
    exact listMax_const hne hz

/-- C2, counterexample: a non-degenerate (non-flat) input on which the
normalized magnitude maximum is 1/2, nowhere near 1.0.  T1 and T2 differ
only in one red sample (0 vs 1/199999999), producing an NDVI change of
−1e-8 at one pixel and 0 at the other, so the raw magnitude range is 1e-8
and the normalized maximum is (1e-8)/(1e-8 + 1e-8) = 1/2. -/
theorem C2_normalization_range_counterexample :
    (detect_changes_with_real_bands
        [("nir", [[1, 1]]), ("red", [[0, 0]]), ("swir", [[1, 1]])]
        [("nir", [[1, 1]]), ("red", [[0, 1/199999999]]), ("swir", [[1, 1]])]).map
      (fun p => listMax p.2.cva_magnitude.flatten) = some (1 / 2) ∧
      ¬ ((9:ℝ)/10 ≤ 1/2) := by
  have h1 : List.lookup "nir"
      [("nir", [[(1:ℚ), 1]]), ("red", [[0, 0]]), ("swir", [[1, 1]])] =
      some [[1, 1]] := by rfl
  have h2 : List.lookup "red"
      [("nir", [[(1:ℚ), 1]]), ("red", [[0, 0]]), ("swir", [[1, 1]])] =
      some [[0, 0]] := by rfl
  have h3 : List.lookup "swir"
      [("nir", [[(1:ℚ), 1]]), ("red", [[0, 0]]), ("swir", [[1, 1]])] =
      some [[1, 1]] := by rfl
  have h4 : List.lookup "nir"
      [("nir", [[(1:ℚ), 1]]), ("red", [[0, 1/199999999]]), ("swir", [[1, 1]])] =
      some [[1, 1]] := by rfl
  have h5 : List.lookup "red"
      [("nir", [[(1:ℚ), 1]]), ("red", [[0, 1/199999999]]), ("swir", [[1, 1]])] =
      some [[0, 1/199999999]] := by rfl
  have h6 : List.lookup "swir"
      [("nir", [[(1:ℚ), 1]]), ("red", [[0, 1/199999999]]), ("swir", [[1, 1]])] =
      some [[1, 1]] := by rfl
  have hg : bandGuard [[(1:ℚ), 1]] [[0, 0]] [[1, 1]] [[1, 1]]
      [[0, 1/199999999]] [[1, 1]] := by
    constructor <;> simp [dims]
  have hdet := detect_some (resampleStep_same h1 h4 rfl)
    (computeResult_some h1 h2 h4 h5 h3 h6 hg)
  have hndvi : matSub (calculate_ndvi [[1, 1]] [[0, 1/199999999]])
      (calculate_ndvi [[1, 1]] [[0, 0]]) = [[0, -1/100000000]] := by
    norm_num [matSub, map2, calculate_ndvi, ndPixel]
  have hndmi : matSub (calculate_ndmi [[(1:ℚ), 1]] [[1, 1]])
      (calculate_ndmi [[1, 1]] [[1, 1]]) = [[0, 0]] := by
    norm_num [matSub, map2, calculate_ndmi, ndPixel]
    rfl
  have hndbi : matSub (calculate_ndbi [[(1:ℚ), 1]] [[1, 1]])
      (calculate_ndbi [[1, 1]] [[1, 1]]) = [[0, 0]] := by
    norm_num [matSub, map2, calculate_ndbi, ndPixel]
    rfl
  have hc1 : cvaPixel (-1/100000000) 0 0 = 1/100000000 := by
    unfold cvaPixel
    push_cast
    rw [show ((-1/100000000 : ℝ)) ^ 2 + 0 ^ 2 + 0 ^ 2 =
      (1/100000000 : ℝ) ^ 2 by ring]
    exact Real.sqrt_sq (by norm_num)
  have hraw : rawMagnitude [[1, 1]] [[0, 0]] [[1, 1]] [[1, 1]]
      [[0, 1/199999999]] [[1, 1]] = [[0, 1/100000000]] := by
    unfold rawMagnitude
    rw [hndvi, hndmi, hndbi]
    simp only [map3, zip3With]
    rw [cvaPixel_zero, hc1]
  have hflatten : ([[(0:ℝ), 1/100000000]] : Mat ℝ).flatten =
      [0, 1/100000000] := by simp
  have hmn : listMin ([[(0:ℝ), 1/100000000]] : Mat ℝ).flatten = 0 := by
    rw [hflatten, listMin, listMin]
    norm_num
  have hmx : listMax ([[(0:ℝ), 1/100000000]] : Mat ℝ).flatten =
      1/100000000 := by
    rw [hflatten, listMax, listMax]
    norm_num
  constructor
  · rw [hdet, Option.map_some', mkResult_cva, hraw,
      cva_normalize_max (by rw [hflatten]; simp), hmn, hmx]
    norm_num
  · norm_num

/-- C8: every result returned by the legacy path `detect_changes` carries
the simulated/demo provenance string and a non-empty warning string; every
result returned by the real-band path `detect_changes_with_real_bands`
carries the real-bands provenance string and no warning field. -/
theorem C8_legacy_tagging :
    (∀ (i1 i2 : Image) (r : Result), detect_changes i1 i2 = some r →
        r.data_source = "Simulated Bands (Demo Mode - NOT ACCURATE)" ∧
          r.bands_used = "RGB-derived (not real multispectral)" ∧
          r.warning = some legacyWarning ∧ legacyWarning ≠ "") ∧
      (∀ (b1 b2 : Bands) (p : Bands × Result),
        detect_changes_with_real_bands b1 b2 = some p →
        p.2.data_source = "Real Satellite Bands (Landsat/Sentinel)" ∧
          p.2.warning = none) := by
  constructor
  · intro i1 i2 r h
    unfold detect_changes at h
    obtain ⟨i2', -, h2⟩ := Option.bind_eq_some.mp h
    obtain ⟨q, -, rfl⟩ := Option.map_eq_some'.mp h2
    exact ⟨rfl, rfl, rfl, by decide⟩
  · intro b1 b2 p h
    obtain ⟨-, hc⟩ := detect_eq_some h
    obtain ⟨n1, r1, n2, r2, s1, s2, -, -, -, -, -, -, -, hres⟩ :=
      computeResult_eq_some hc
    rw [hres]
    exact ⟨rfl, rfl⟩

/-- C8, witness: a concrete 1×1 legacy run is tagged as simulated with the
warning, and a concrete real-band run is tagged as real with no warning. -/
theorem C8_legacy_tagging_witness :
    (detect_changes [[((10:ℚ), 20, 30)]] [[((10:ℚ), 20, 30)]]).map
        (fun r => (r.data_source, r.warning)) =
      some ("Simulated Bands (Demo Mode - NOT ACCURATE)",
        some legacyWarning) ∧
      (detect_changes_with_real_bands
          [("red", [[10]]), ("green", [[20]]), ("blue", [[30]]),
            ("nir", [[44]]), ("swir", [[17]])]
          [("red", [[10]]), ("green", [[20]]), ("blue", [[30]]),
            ("nir", [[44]]), ("swir", [[17]])]).map
        (fun p => (p.2.data_source, p.2.warning)) =
      some ("Real Satellite Bands (Landsat/Sentinel)", none) := by
  have hsim : simulate_bands_from_rgb [[((10:ℚ), 20, 30)]] =
      [("red", [[10]]), ("green", [[20]]), ("blue", [[30]]),
        ("nir", [[44]]), ("swir", [[17]])] := by
    norm_num [simulate_bands_from_rgb, matMap, map2, toUint8]
  have h1 : List.lookup "nir"
      ([("red", [[(10:ℚ)]]), ("green", [[20]]), ("blue", [[30]]),
        ("nir", [[44]]), ("swir", [[17]])] : Bands) = some [[44]] := by rfl
  have h2 : List.lookup "red"
      ([("red", [[(10:ℚ)]]), ("green", [[20]]), ("blue", [[30]]),
        ("nir", [[44]]), ("swir", [[17]])] : Bands) = some [[10]] := by rfl
  have h3 : List.lookup "swir"
      ([("red", [[(10:ℚ)]]), ("green", [[20]]), ("blue", [[30]]),
        ("nir", [[44]]), ("swir", [[17]])] : Bands) = some [[17]] := by rfl
  have hg : bandGuard [[(44:ℚ)]] [[10]] [[17]] [[44]] [[10]] [[17]] := by
    constructor <;> simp [dims]
  have hinner := detect_some (resampleStep_same h1 h1 rfl)
    (computeResult_some h1 h2 h1 h2 h3 h3 hg)
  have hdc : detect_changes [[((10:ℚ), 20, 30)]] [[((10:ℚ), 20, 30)]] =
      some { (mkResult [[44]] [[10]] [[17]] [[44]] [[10]] [[17]]) with
        data_source := "Simulated Bands (Demo Mode - NOT ACCURATE)"
        bands_used := "RGB-derived (not real multispectral)"
        warning := some legacyWarning } := by
    unfold detect_changes
    rw [if_neg (fun hne => hne rfl)]
    simp only [Option.some_bind, hsim, hinner, Option.map_some']
  constructor
  · obtain ⟨R, hdcR, hf, hw⟩ :
        ∃ R, detect_changes [[((10:ℚ), 20, 30)]] [[((10:ℚ), 20, 30)]] =
            some R ∧
          R.data_source = "Simulated Bands (Demo Mode - NOT ACCURATE)" ∧
          R.warning = some legacyWarning := by
      refine ⟨_, hdc, ?_, ?_⟩
      · exact (C8_legacy_tagging.1 _ _ _ hdc).1
      · exact (C8_legacy_tagging.1 _ _ _ hdc).2.2.1
    rw [hdcR, Option.map_some', hf, hw]
  · obtain ⟨P, hdcP, hf, hw⟩ :
        ∃ P, detect_changes_with_real_bands
            [("red", [[(10:ℚ)]]), ("green", [[20]]), ("blue", [[30]]),
              ("nir", [[44]]), ("swir", [[17]])]
            [("red", [[(10:ℚ)]]), ("green", [[20]]), ("blue", [[30]]),
              ("nir", [[44]]), ("swir", [[17]])] = some P ∧
          P.2.data_source = "Real Satellite Bands (Landsat/Sentinel)" ∧
          P.2.warning = none := by
      refine ⟨_, hinner, ?_, ?_⟩
      · exact (C8_legacy_tagging.2 _ _ _ hinner).1
      · exact (C8_legacy_tagging.2 _ _ _ hinner).2
    rw [hdcP, Option.map_some', hf, hw]

/-- C9: if any required band key (`nir`, `red`, `swir`) is absent from
either input map, `detect_changes_with_real_bands` fails (the `KeyError`,
modelled as `none`) instead of defaulting a substitute; and for any two
structurally valid inputs (all three keys present, well-formed non-empty
rasters of one shape per epoch — the shapes may differ between epochs), it
returns a result whatever the numeric samples are (malformed numeric
content never raises: the NaN/Inf cases are neutralized inside the index
formulas). -/
theorem C9_missing_band_fails :
    (∀ b1 b2 : Bands,
        (b1.lookup "nir" = none ∨ b1.lookup "red" = none ∨
          b1.lookup "swir" = none ∨ b2.lookup "nir" = none ∨
          b2.lookup "red" = none ∨ b2.lookup "swir" = none) →
        detect_changes_with_real_bands b1 b2 = none) ∧
      (∀ (b1 b2 : Bands) (n1 r1 s1 n2 r2 s2 : Raster) (R C R2 C2 : ℕ),
        b1.lookup "nir" = some n1 → b1.lookup "red" = some r1 →
        b1.lookup "swir" = some s1 → b2.lookup "nir" = some n2 →
        b2.lookup "red" = some r2 → b2.lookup "swir" = some s2 →
        hasShape n1 R C → hasShape r1 R C → hasShape s1 R C →
        hasShape n2 R2 C2 → hasShape r2 R2 C2 → hasShape s2 R2 C2 →
        (∀ kv ∈ b2, 0 < (dims kv.2).1 ∧ 0 < (dims kv.2).2) →
        0 < R → 0 < C → 0 < R2 → 0 < C2 →
        (detect_changes_with_real_bands b1 b2).isSome = true) := by
  constructor
  · intro b1 b2 hmiss
    rcases hdet : detect_changes_with_real_bands b1 b2 with _ | p
    · rfl
    · exfalso
      obtain ⟨hr, hc⟩ := detect_eq_some hdet
      obtain ⟨x1, x2, hx1, hx2, hcase⟩ := resampleStep_eq_some hr
      obtain ⟨m1, r1, m2, r2, s1, s2, hm1, hr1, hm2, hr2, hs1, hs2, -, -⟩ :=
        computeResult_eq_some hc
      have hl : ∀ k, (List.lookup k p.1).isSome = (List.lookup k b2).isSome := by
        rcases hcase with ⟨-, he⟩ | ⟨-, he⟩
        · intro k; rw [he]
        · intro k
          rw [he, lookup_map_value
            (fun m => resizeSample m ((dims x1).2, (dims x1).1))]
          cases List.lookup k b2 <;> rfl
      rcases hmiss with h | h | h | h | h | h
      · rw [h] at hm1; exact Option.noConfusion hm1
      · rw [h] at hr1; exact Option.noConfusion hr1
      · rw [h] at hs1; exact Option.noConfusion hs1
      · have hk := hl "nir"; rw [hm2, h] at hk; simp at hk
      · have hk := hl "red"; rw [hr2, h] at hk; simp at hk
      · have hk := hl "swir"; rw [hs2, h] at hk; simp at hk
  · intro b1 b2 n1 r1 s1 n2 r2 s2 R C R2 C2 hn1 hr1 hs1 hn2 hr2 hs2
      hsn1 hsr1 hss1 hsn2 hsr2 hss2 hok hR hC hR2 hC2
    have hd1 : dims n1 = (R, C) := dims_of_hasShape hsn1 hR
    have hd2 : dims n2 = (R2, C2) := dims_of_hasShape hsn2 hR2
    by_cases hds : dims n1 = dims n2
    · have hg : bandGuard n1 r1 s1 n2 r2 s2 := by
        have hrc : (R2, C2) = (R, C) := by rw [← hd1, ← hd2, hds]
        refine ⟨?_, ?_, ?_, ?_, ?_, ?_, ?_⟩
        · rw [dims_of_hasShape hsr1 hR, hd1]
        · rw [dims_of_hasShape hss1 hR, hd1]
        · rw [hd2, hd1, hrc]
        · rw [dims_of_hasShape hsr2 hR2, hd1, hrc]
        · rw [dims_of_hasShape hss2 hR2, hd1, hrc]
        · rw [hd1]; exact hR
        · rw [hd1]; exact hC
      rw [detect_some (resampleStep_same hn1 hn2 hds)
        (computeResult_some hn1 hr1 hn2 hr2 hs1 hs2 hg)]
      rfl
    · have htarget : ((dims n1).2, (dims n1).1) = (C, R) := by rw [hd1]
      have hrn2 : hasShape (resizeSample n2 ((dims n1).2, (dims n1).1)) R C := by
        rw [htarget]; exact hasShape_resizeSample n2 C R
      have hrr2 : hasShape (resizeSample r2 ((dims n1).2, (dims n1).1)) R C := by
        rw [htarget]; exact hasShape_resizeSample r2 C R
      have hrs2 : hasShape (resizeSample s2 ((dims n1).2, (dims n1).1)) R C := by
        rw [htarget]; exact hasShape_resizeSample s2 C R
      have hb2 := resampleStep_resized hn1 hn2 hds
        (by rw [hd1]; exact hR) (by rw [hd1]; exact hC) hok
      have hn2' : (b2.map fun kv =>
          (kv.1, resizeSample kv.2 ((dims n1).2, (dims n1).1))).lookup "nir" =
          some (resizeSample n2 ((dims n1).2, (dims n1).1)) := by
        rw [lookup_map_value
          (fun m => resizeSample m ((dims n1).2, (dims n1).1)), hn2]; rfl
      have hr2' : (b2.map fun kv =>
          (kv.1, resizeSample kv.2 ((dims n1).2, (dims n1).1))).lookup "red" =
          some (resizeSample r2 ((dims n1).2, (dims n1).1)) := by
        rw [lookup_map_value
          (fun m => resizeSample m ((dims n1).2, (dims n1).1)), hr2]; rfl
      have hs2' : (b2.map fun kv =>
          (kv.1, resizeSample kv.2 ((dims n1).2, (dims n1).1))).lookup "swir" =
          some (resizeSample s2 ((dims n1).2, (dims n1).1)) := by
        rw [lookup_map_value
          (fun m => resizeSample m ((dims n1).2, (dims n1).1)), hs2]; rfl
      have hg : bandGuard n1 r1 s1
          (resizeSample n2 ((dims n1).2, (dims n1).1))
          (resizeSample r2 ((dims n1).2, (dims n1).1))
          (resizeSample s2 ((dims n1).2, (dims n1).1)) := by
        refine ⟨?_, ?_, ?_, ?_, ?_, ?_, ?_⟩
        · rw [dims_of_hasShape hsr1 hR, hd1]
        · rw [dims_of_hasShape hss1 hR, hd1]
        · rw [dims_of_hasShape hrn2 hR, hd1]
        · rw [dims_of_hasShape hrr2 hR, hd1]
        · rw [dims_of_hasShape hrs2 hR, hd1]
        · rw [hd1]; exact hR
        · rw [hd1]; exact hC
      rw [detect_some hb2 (computeResult_some hn1 hr1 hn2' hr2' hs1 hs2' hg)]
      rfl

/-- C9, witness: a T1 map lacking `swir` makes the call fail, while a
structurally valid pair with different epoch shapes (1×1 vs 2×2) succeeds
even with arbitrary samples. -/
theorem C9_missing_band_fails_witness :
    detect_changes_with_real_bands [("nir", [[1]]), ("red", [[1]])]
        [("nir", [[1]]), ("red", [[1]]), ("swir", [[1]])] = none ∧
      (detect_changes_with_real_bands
          [("nir", [[1]]), ("red", [[2]]), ("swir", [[3]])]
          [("nir", [[1, 2], [3, 4]]), ("red", [[5, 6], [7, 8]]),
            ("swir", [[9, 1], [2, 3]])]).isSome = true := by
  constructor
  · exact C9_missing_band_fails.1 _ _ (Or.inr (Or.inr (Or.inl rfl)))
  · exact C9_missing_band_fails.2 _ _ [[1]] [[2]] [[3]] [[1, 2], [3, 4]]
      [[5, 6], [7, 8]] [[9, 1], [2, 3]] 1 1 2 2 rfl rfl rfl rfl rfl rfl
      (by constructor <;> simp) (by constructor <;> simp)
      (by constructor <;> simp) (by constructor <;> simp)
      (by constructor <;> simp) (by constructor <;> simp)
      (by decide)
      (by norm_num) (by norm_num) (by norm_num) (by norm_num)

/-- C3: when the raster shapes of the two epochs differ (T1 bands being
well-formed non-empty R×C rasters, T2's rasters non-empty — an empty one
would make `cv2.resize` raise instead — and T2's nir raster having a
different shape), every raster in the T2 mapping is resampled to T1's
shape before any index computation (the post-resampling T2 state consists
of R×C rasters only), the call succeeds, and all four result rasters (the
three change rasters and the normalized magnitude) have T1's shape R×C. -/
theorem C3_resample_to_t1_shape (b1 b2 : Bands) (n1 r1 s1 n2 : Raster)
    (R C : ℕ)
    (hn1 : b1.lookup "nir" = some n1) (hr1 : b1.lookup "red" = some r1)
    (hs1 : b1.lookup "swir" = some s1) (hn2 : b2.lookup "nir" = some n2)
    (hr2 : (b2.lookup "red").isSome = true)
    (hs2 : (b2.lookup "swir").isSome = true)
    (hsn1 : hasShape n1 R C) (hsr1 : hasShape r1 R C)
    (hss1 : hasShape s1 R C)
    (hb2pos : ∀ kv ∈ b2, 0 < (dims kv.2).1 ∧ 0 < (dims kv.2).2)
    (hR : 0 < R) (hC : 0 < C)
    (hd : dims n2 ≠ (R, C)) :
    (detect_changes_with_real_bands b1 b2).isSome = true ∧
      ∀ p, detect_changes_with_real_bands b1 b2 = some p →
        (∀ kv ∈ p.1, hasShape kv.2 R C) ∧
          hasShape p.2.ndvi_change R C ∧ hasShape p.2.ndmi_change R C ∧
          hasShape p.2.ndbi_change R C ∧ hasShape p.2.cva_magnitude R C := by
  have hd1 : dims n1 = (R, C) := dims_of_hasShape hsn1 hR
  have hdne : dims n1 ≠ dims n2 := by rw [hd1]; exact fun h => hd h.symm
  obtain ⟨r2, hr2e⟩ := Option.isSome_iff_exists.mp hr2
  obtain ⟨s2, hs2e⟩ := Option.isSome_iff_exists.mp hs2
  have htarget : ((dims n1).2, (dims n1).1) = (C, R) := by rw [hd1]
  have hrn2 : hasShape (resizeSample n2 ((dims n1).2, (dims n1).1)) R C := by
    rw [htarget]; exact hasShape_resizeSample n2 C R
  have hrr2 : hasShape (resizeSample r2 ((dims n1).2, (dims n1).1)) R C := by
    rw [htarget]; exact hasShape_resizeSample r2 C R
  have hrs2 : hasShape (resizeSample s2 ((dims n1).2, (dims n1).1)) R C := by
    rw [htarget]; exact hasShape_resizeSample s2 C R
  have hb2 := resampleStep_resized hn1 hn2 hdne
    (by rw [hd1]; exact hR) (by rw [hd1]; exact hC) hb2pos
  have hn2' : (b2.map fun kv =>
      (kv.1, resizeSample kv.2 ((dims n1).2, (dims n1).1))).lookup "nir" =
      some (resizeSample n2 ((dims n1).2, (dims n1).1)) := by
    rw [lookup_map_value
      (fun m => resizeSample m ((dims n1).2, (dims n1).1)), hn2]; rfl
  have hr2' : (b2.map fun kv =>
      (kv.1, resizeSample kv.2 ((dims n1).2, (dims n1).1))).lookup "red" =
      some (resizeSample r2 ((dims n1).2, (dims n1).1)) := by
    rw [lookup_map_value
      (fun m => resizeSample m ((dims n1).2, (dims n1).1)), hr2e]; rfl
  have hs2' : (b2.map fun kv =>
      (kv.1, resizeSample kv.2 ((dims n1).2, (dims n1).1))).lookup "swir" =
      some (resizeSample s2 ((dims n1).2, (dims n1).1)) := by
    rw [lookup_map_value
      (fun m => resizeSample m ((dims n1).2, (dims n1).1)), hs2e]; rfl
  have hg : bandGuard n1 r1 s1
      (resizeSample n2 ((dims n1).2, (dims n1).1))
      (resizeSample r2 ((dims n1).2, (dims n1).1))
      (resizeSample s2 ((dims n1).2, (dims n1).1)) := by
    refine ⟨?_, ?_, ?_, ?_, ?_, ?_, ?_⟩
    · rw [dims_of_hasShape hsr1 hR, hd1]
    · rw [dims_of_hasShape hss1 hR, hd1]
    · rw [dims_of_hasShape hrn2 hR, hd1]
    · rw [dims_of_hasShape hrr2 hR, hd1]
    · rw [dims_of_hasShape hrs2 hR, hd1]
    · rw [hd1]; exact hR
    · rw [hd1]; exact hC
  have hdet := detect_some hb2
    (computeResult_some hn1 hr1 hn2' hr2' hs1 hs2' hg)
  constructor
  · rw [hdet]; rfl
  · intro p hp
    rw [hdet] at hp
    have hpe := (Option.some_inj.mp hp).symm
    rw [hpe]
    refine ⟨?_, ?_, ?_, ?_, ?_⟩
    · intro kv hkv
      obtain ⟨kv0, -, rfl⟩ := List.mem_map.mp hkv
      have : hasShape (resizeSample kv0.2 ((dims n1).2, (dims n1).1)) R C := by
        rw [htarget]; exact hasShape_resizeSample kv0.2 C R
      exact this
    · rw [mkResult_ndvi]
      exact hasShape_map2 (hasShape_map2 hrn2 hrr2) (hasShape_map2 hsn1 hsr1)
    · rw [mkResult_ndmi]
      exact hasShape_map2 (hasShape_map2 hrn2 hrs2) (hasShape_map2 hsn1 hss1)
    · rw [mkResult_ndbi]
      exact hasShape_map2 (hasShape_map2 hrs2 hrn2) (hasShape_map2 hss1 hsn1)
    · rw [mkResult_cva]
      exact hasShape_cva_normalize (hasShape_map3
        (hasShape_map2 (hasShape_map2 hrn2 hrr2) (hasShape_map2 hsn1 hsr1))
        (hasShape_map2 (hasShape_map2 hrn2 hrs2) (hasShape_map2 hsn1 hss1))
        (hasShape_map2 (hasShape_map2 hrs2 hrn2) (hasShape_map2 hss1 hsn1)))

/-- C3, witness: a 1×1 T1 with a 2×2 T2 succeeds, and the normalized
magnitude raster of the result comes out with T1's shape (1, 1). -/
theorem C3_resample_to_t1_shape_witness :
    (detect_changes_with_real_bands
        [("nir", [[2]]), ("red", [[3]]), ("swir", [[4]])]
        [("nir", [[1, 2], [3, 4]]), ("red", [[5, 6], [7, 8]]),
          ("swir", [[9, 1], [2, 3]])]).isSome = true ∧
      (detect_changes_with_real_bands
          [("nir", [[2]]), ("red", [[3]]), ("swir", [[4]])]
          [("nir", [[1, 2], [3, 4]]), ("red", [[5, 6], [7, 8]]),
            ("swir", [[9, 1], [2, 3]])]).map
        (fun p => dims p.2.cva_magnitude) = some (1, 1) := by
  have h := C3_resample_to_t1_shape
    [("nir", [[2]]), ("red", [[3]]), ("swir", [[4]])]
    [("nir", [[1, 2], [3, 4]]), ("red", [[5, 6], [7, 8]]),
      ("swir", [[9, 1], [2, 3]])]
    [[2]] [[3]] [[4]] [[1, 2], [3, 4]] 1 1
    rfl rfl rfl rfl rfl rfl
    (by constructor <;> simp) (by constructor <;> simp)
    (by constructor <;> simp) (by decide)
    (by norm_num) (by norm_num) (by simp [dims])
  refine ⟨h.1, ?_⟩
  obtain ⟨p, hp⟩ := Option.isSome_iff_exists.mp h.1
  rw [hp, Option.map_some']
  exact congrArg some
    (dims_of_hasShape ((h.2 p hp).2.2.2.2) (by norm_num))

/-- C10: the shape-mismatch test compares only the `nir` rasters of the
two epochs (lines 54-59): if the `nir` shapes agree, no resampling at all
is performed — the T2 mapping is returned untouched even when its `red` or
`swir` rasters have different shapes; if the `nir` shapes differ, then —
provided every resize succeeds, i.e. the T1 `nir` target shape and every
stored T2 raster are non-empty (otherwise `cv2.resize` raises) — every
raster stored in the T2 mapping (whatever its key) is re-assigned to a
resized copy targeting T1's `nir` shape, so every resulting raster has
that shape. -/
theorem C10_nir_only_shape_check (b1 b2 : Bands) (n1 n2 : Raster)
    (h1 : b1.lookup "nir" = some n1) (h2 : b2.lookup "nir" = some n2) :
    (dims n1 = dims n2 → resampleStep b1 b2 = some b2) ∧
      (dims n1 ≠ dims n2 → 0 < (dims n1).1 → 0 < (dims n1).2 →
        (∀ kv ∈ b2, 0 < (dims kv.2).1 ∧ 0 < (dims kv.2).2) →
        resampleStep b1 b2 =
            some (b2.map fun kv =>
              (kv.1, resizeSample kv.2 ((dims n1).2, (dims n1).1))) ∧
          ∀ kv ∈ b2.map (fun kv =>
              (kv.1, resizeSample kv.2 ((dims n1).2, (dims n1).1))),
            hasShape kv.2 (dims n1).1 (dims n1).2) := by
  constructor
  · exact fun hd => resampleStep_same h1 h2 hd
  · intro hd hh hw hok
    refine ⟨resampleStep_resized h1 h2 hd hh hw hok, ?_⟩
    intro kv hkv
    obtain ⟨kv0, -, rfl⟩ := List.mem_map.mp hkv
    exact hasShape_resizeSample kv0.2 (dims n1).2 (dims n1).1

/-- C10, witness: with equal 1×1 `nir` shapes but T2 `red` of a different
shape than T1 `red`, no resampling happens (T2 returned bit-identically);
with differing `nir` shapes (2×2 vs 1×1) every T2 raster, `red` and `swir`
included, is resized to the T1 `nir` shape. -/
theorem C10_nir_only_shape_check_witness :
    resampleStep [("nir", [[1]]), ("red", [[1, 2], [3, 4]]), ("swir", [[5]])]
        [("nir", [[9]]), ("red", [[7, 7, 7]]), ("swir", [[8]])] =
      some [("nir", [[9]]), ("red", [[7, 7, 7]]), ("swir", [[8]])] ∧
      resampleStep [("nir", [[1, 2], [3, 4]]), ("red", [[0]]), ("swir", [[0]])]
          [("nir", [[5]]), ("red", [[6]]), ("swir", [[7]])] =
        some [("nir", [[5, 5], [5, 5]]), ("red", [[6, 6], [6, 6]]),
          ("swir", [[7, 7], [7, 7]])] := by
  constructor
  · exact (C10_nir_only_shape_check
      [("nir", [[1]]), ("red", [[1, 2], [3, 4]]), ("swir", [[5]])]
      [("nir", [[9]]), ("red", [[7, 7, 7]]), ("swir", [[8]])]
      [[1]] [[9]] rfl rfl).1 rfl
  · have h := (C10_nir_only_shape_check
      [("nir", [[1, 2], [3, 4]]), ("red", [[0]]), ("swir", [[0]])]
      [("nir", [[5]]), ("red", [[6]]), ("swir", [[7]])]
      [[1, 2], [3, 4]] [[5]] rfl rfl).2 (by simp [dims])
      (by norm_num [dims]) (by norm_num [dims]) (by decide)
    rw [h.1]
    rfl

/-- C4 (amended): `detect_changes_with_real_bands` never touches the T1
band set, and leaves the T2 band set unchanged whenever the two `nir`
shapes already agree; but when the shapes differ the T2 mapping is mutated
in place (its entries re-bound to the resized rasters), so the original
claim that the inputs are never modified does not hold in general. -/
theorem C4_no_mutation_amended (b1 b2 : Bands) (n1 n2 : Raster)
    (h1 : b1.lookup "nir" = some n1) (h2 : b2.lookup "nir" = some n2)
    (hd : dims n1 = dims n2) (p : Bands × Result)
    (h : detect_changes_with_real_bands b1 b2 = some p) : p.1 = b2 := by
  obtain ⟨hr, -⟩ := detect_eq_some h
  rw [resampleStep_same h1 h2 hd] at hr
  exact (Option.some_inj.mp hr).symm

/-- C4, witness: an equal-shape run returns the T2 state untouched. -/
theorem C4_no_mutation_amended_witness :
    (detect_changes_with_real_bands
        [("nir", [[3]]), ("red", [[1]]), ("swir", [[2]])]
        [("nir", [[4]]), ("red", [[2]]), ("swir", [[1]])]).map Prod.fst =
      some [("nir", [[4]]), ("red", [[2]]), ("swir", [[1]])] := by
  have ha : List.lookup "nir"
      [("nir", [[(3:ℚ)]]), ("red", [[1]]), ("swir", [[2]])] =
      some [[3]] := by rfl
  have hb : List.lookup "red"
      [("nir", [[(3:ℚ)]]), ("red", [[1]]), ("swir", [[2]])] =
      some [[1]] := by rfl
  have hcw : List.lookup "swir"
      [("nir", [[(3:ℚ)]]), ("red", [[1]]), ("swir", [[2]])] =
      some [[2]] := by rfl
  have ha2 : List.lookup "nir"
      [("nir", [[(4:ℚ)]]), ("red", [[2]]), ("swir", [[1]])] =
      some [[4]] := by rfl
  have hb2 : List.lookup "red"
      [("nir", [[(4:ℚ)]]), ("red", [[2]]), ("swir", [[1]])] =
      some [[2]] := by rfl
  have hc2 : List.lookup "swir"
      [("nir", [[(4:ℚ)]]), ("red", [[2]]), ("swir", [[1]])] =
      some [[1]] := by rfl
  have hg : bandGuard [[(3:ℚ)]] [[1]] [[2]] [[4]] [[2]] [[1]] := by
    constructor <;> simp [dims]
  have hdet := detect_some (resampleStep_same ha ha2 rfl)
    (computeResult_some ha hb ha2 hb2 hcw hc2 hg)
  obtain ⟨p, hp, hfst⟩ :
      ∃ p, detect_changes_with_real_bands
          [("nir", [[3]]), ("red", [[1]]), ("swir", [[2]])]
          [("nir", [[4]]), ("red", [[2]]), ("swir", [[1]])] = some p ∧
        p.1 = [("nir", [[4]]), ("red", [[2]]), ("swir", [[1]])] :=
    ⟨_, hdet, C4_no_mutation_amended _ _ _ _ ha ha2 rfl _ hdet⟩
  rw [hp, Option.map_some', hfst]

/-- C4, counterexample: with a 2×2 T1 and a 1×1 T2 the call succeeds but
returns a T2 state whose rasters have been replaced by their resized
copies — the caller's `bands2` dictionary is mutated in place, unlike what
the claim states. -/
theorem C4_no_mutation_counterexample :
    (detect_changes_with_real_bands
        [("nir", [[1, 2], [3, 4]]), ("red", [[0, 0], [0, 0]]),
          ("swir", [[1, 1], [1, 1]])]
        [("nir", [[5]]), ("red", [[7]]), ("swir", [[9]])]).map Prod.fst =
      some [("nir", [[5, 5], [5, 5]]), ("red", [[7, 7], [7, 7]]),
        ("swir", [[9, 9], [9, 9]])] ∧
      ([("nir", [[(5:ℚ), 5], [5, 5]]), ("red", [[7, 7], [7, 7]]),
          ("swir", [[9, 9], [9, 9]])] : Bands) ≠
        [("nir", [[5]]), ("red", [[7]]), ("swir", [[9]])] := by
  have ha : List.lookup "nir"
      [("nir", [[(1:ℚ), 2], [3, 4]]), ("red", [[0, 0], [0, 0]]),
        ("swir", [[1, 1], [1, 1]])] = some [[1, 2], [3, 4]] := by rfl
  have hb : List.lookup "red"
      [("nir", [[(1:ℚ), 2], [3, 4]]), ("red", [[0, 0], [0, 0]]),
        ("swir", [[1, 1], [1, 1]])] = some [[0, 0], [0, 0]] := by rfl
  have hcw : List.lookup "swir"
      [("nir", [[(1:ℚ), 2], [3, 4]]), ("red", [[0, 0], [0, 0]]),
        ("swir", [[1, 1], [1, 1]])] = some [[1, 1], [1, 1]] := by rfl
  have ha2 : List.lookup "nir"
      [("nir", [[(5:ℚ)]]), ("red", [[7]]), ("swir", [[9]])] =
      some [[5]] := by rfl
  have hrs := resampleStep_resized ha ha2 (by simp [dims])
    (by norm_num [dims]) (by norm_num [dims]) (by decide)
  have hn2' : (([("nir", [[(5:ℚ)]]), ("red", [[7]]), ("swir", [[9]])] :
      Bands).map fun kv =>
      (kv.1, resizeSample kv.2 ((dims [[(1:ℚ), 2], [3, 4]]).2,
        (dims [[(1:ℚ), 2], [3, 4]]).1))).lookup "nir" =
      some [[5, 5], [5, 5]] := by rfl
  have hr2' : (([("nir", [[(5:ℚ)]]), ("red", [[7]]), ("swir", [[9]])] :
      Bands).map fun kv =>
      (kv.1, resizeSample kv.2 ((dims [[(1:ℚ), 2], [3, 4]]).2,
        (dims [[(1:ℚ), 2], [3, 4]]).1))).lookup "red" =
      some [[7, 7], [7, 7]] := by rfl
  have hs2' : (([("nir", [[(5:ℚ)]]), ("red", [[7]]), ("swir", [[9]])] :
      Bands).map fun kv =>
      (kv.1, resizeSample kv.2 ((dims [[(1:ℚ), 2], [3, 4]]).2,
        (dims [[(1:ℚ), 2], [3, 4]]).1))).lookup "swir" =
      some [[9, 9], [9, 9]] := by rfl
  have hg : bandGuard [[(1:ℚ), 2], [3, 4]] [[0, 0], [0, 0]] [[1, 1], [1, 1]]
      [[5, 5], [5, 5]] [[7, 7], [7, 7]] [[9, 9], [9, 9]] := by
    constructor <;> simp [dims]
  have hdet := detect_some hrs
    (computeResult_some ha hb hn2' hr2' hcw hs2' hg)
  constructor
  · rw [hdet, Option.map_some']
    rfl
  · intro hcontra
    simp at hcontra

end GeoVision
